import Mathlib

/-!
Shallow embedding of the agent-wallet ledger service
(service/agent_wallet_service) and proofs about its specified behavior.

Monetary amounts (fixed-point decimals with 4 fractional digits in the
source) are modelled as exact integers; identifiers (UUIDs) as natural
numbers; timestamps as integers.  Database rows become entries of Lean
lists; the SQL unique constraints that the claims depend on are modelled
at the point where the source flushes the corresponding insert.
Row-level locking (lock_ledger_accounts) only matters under concurrency
and is a no-op in this sequential embedding.
-/

namespace AgentWallet

/-- models/wallet.py WalletStatus -/
inductive WalletStatus where
  | active
  | frozen
  | closed
deriving DecidableEq, Repr

/-- models/ledger_account.py LedgerAccountKind -/
inductive LedgerAccountKind where
  | available
  | held
deriving DecidableEq, Repr

/-- models/journal_line.py JournalLineDirection -/
inductive JournalLineDirection where
  | debit
  | credit
deriving DecidableEq, Repr

/-- models/journal_entry.py JournalEntryType -/
inductive JournalEntryType where
  | deposit_external
  | transfer
  | hold
  | capture
  | release
  | refund
  | reversal
  | adjustment
deriving DecidableEq, Repr

/-- models/journal_entry.py JournalEntryStatus -/
inductive JournalEntryStatus where
  | pending
  | posted
  | reversed
  | failed
deriving DecidableEq, Repr

/-- models/hold.py HoldStatus -/
inductive HoldStatus where
  | active
  | captured
  | released
  | expired
deriving DecidableEq, Repr

/-- Error codes raised by the service layer (error_code fields of the
HTTPException detail dicts, plus internal_error for unhandled exceptions
such as ValueError and IntegrityError that FastAPI turns into a 500). -/
inductive ErrorCode where
  | invalid_amount
  | self_transfer
  | wallet_not_active
  | currency_mismatch
  | insufficient_funds
  | hold_not_found
  | forbidden
  | hold_expired
  | hold_not_capturable
  | hold_not_releasable
  | amount_exceeds_hold
  | capture_not_found
  | amount_exceeds_refundable
  | forbidden_scope
  | recipient_not_found
  | wallet_frozen
  | wallet_closed
  | invalid_recipient_type
  | limit_exceeded
  | counterparty_not_allowed
  | internal_error
deriving DecidableEq, Repr

/-- HTTP status code attached to each error at its raise site in the
source (400 bad request, 403 forbidden, 404 not found, 500 internal). -/
def errorHttpStatus : ErrorCode → Nat
  | .invalid_amount => 400
  | .self_transfer => 400
  | .wallet_not_active => 403
  | .currency_mismatch => 400
  | .insufficient_funds => 400
  | .hold_not_found => 404
  | .forbidden => 403
  | .hold_expired => 400
  | .hold_not_capturable => 400
  | .hold_not_releasable => 400
  | .amount_exceeds_hold => 400
  | .capture_not_found => 404
  | .amount_exceeds_refundable => 400
  | .forbidden_scope => 403
  | .recipient_not_found => 404
  | .wallet_frozen => 403
  | .wallet_closed => 403
  | .invalid_recipient_type => 400
  | .limit_exceeded => 400
  | .counterparty_not_allowed => 403
  | .internal_error => 500

/-- models/wallet.py Wallet (fields the core reads). -/
structure Wallet where
  id : Nat
  status : WalletStatus
  currency : String
  handle : Option String
deriving DecidableEq, Repr

/-- The identity of a ledger_accounts row.  The table is unique on
(wallet_id, kind), so a row is addressed by that pair; the row currency
is never read by the operations under study. -/
structure AccountRef where
  wallet_id : Nat
  kind : LedgerAccountKind
deriving DecidableEq, Repr

/-- models/journal_line.py JournalLine (one row of a journal entry). -/
structure JournalLine where
  ledger_account_id : AccountRef
  direction : JournalLineDirection
  amount : Int
  currency : String
deriving DecidableEq, Repr

/-- models/journal_entry.py JournalEntry; its lines (rows of the
journal_lines table keyed by journal_entry_id) are kept inline. -/
structure JournalEntry where
  id : Nat
  type : JournalEntryType
  status : JournalEntryStatus
  idempotency_key : String
  reference_id : Option String
  created_by_api_key_id : Nat
  created_at : Int
  lines : List JournalLine
deriving DecidableEq, Repr

/-- models/hold.py Hold. -/
structure Hold where
  id : Nat
  wallet_id : Nat
  amount : Int
  remaining_amount : Int
  currency : String
  status : HoldStatus
  expires_at : Int
  created_by_api_key_id : Nat
  idempotency_key : String
deriving DecidableEq, Repr

/-- models/capture.py Capture. -/
structure Capture where
  id : Nat
  hold_id : Nat
  to_wallet_id : Nat
  amount : Int
  currency : String
  journal_entry_id : Nat
  idempotency_key : String
  refunded_amount : Int
deriving DecidableEq, Repr

/-- models/capture.py Capture.refundable_amount property. -/
def Capture.refundable_amount (c : Capture) : Int :=
  c.amount - c.refunded_amount

/-- models/refund.py Refund. -/
structure Refund where
  id : Nat
  capture_id : Nat
  amount : Int
  currency : String
  journal_entry_id : Nat
  idempotency_key : String
deriving DecidableEq, Repr

/-- One element of the allowed_counterparties limit: a dict that may
carry a wallet_id key, a handle key, or both. -/
structure CounterpartyRule where
  wallet_id : Option Nat
  handle : Option String
deriving DecidableEq, Repr

/-- models/api_key.py APIKey; the JSONB limits dict is modelled by its
three recognized keys (per_tx_max, daily_max, allowed_counterparties),
absent keys being none. -/
structure APIKey where
  id : Nat
  wallet_id : Nat
  scopes : List String
  per_tx_max : Option Int
  daily_max : Option Int
  allowed_counterparties : Option (List CounterpartyRule)
deriving DecidableEq, Repr

/-- models/external_identity.py ExternalIdentity. -/
structure ExternalIdentity where
  provider : String
  external_user_id : String
  wallet_id : Nat
deriving DecidableEq, Repr

/-- The relational store: one list per table, plus the id sequence that
stands in for UUID generation (fresh rows take ids from next_id).  New
rows are prepended to their list. -/
structure LedgerState where
  wallets : List Wallet
  accounts : List AccountRef
  entries : List JournalEntry
  holds : List Hold
  captures : List Capture
  refunds : List Refund
  external_identities : List ExternalIdentity
  next_id : Nat
deriving DecidableEq, Repr

/-- Sum of the amounts of the lines of one entry that hit the given
account in the given direction. -/
def entryLineSum (acc : AccountRef) (dir : JournalLineDirection) (e : JournalEntry) : Int :=
  ((e.lines.filter (fun l => l.ledger_account_id == acc && l.direction == dir)).map
    (fun l => l.amount)).sum

/-- services/balance.py get_ledger_account_balance: balance of a ledger
account = sum of posted credit lines minus sum of posted debit lines. -/
def get_ledger_account_balance (s : LedgerState) (acc : AccountRef) : Int :=
  ((s.entries.filter (fun e => e.status == JournalEntryStatus.posted)).map
    (entryLineSum acc JournalLineDirection.credit)).sum -
  ((s.entries.filter (fun e => e.status == JournalEntryStatus.posted)).map
    (entryLineSum acc JournalLineDirection.debit)).sum

/-- Available balance of a wallet: balance of its available account
(an account without rows or lines has balance 0, as in the source). -/
def available_balance (s : LedgerState) (wid : Nat) : Int :=
  get_ledger_account_balance s ⟨wid, LedgerAccountKind.available⟩

/-- Held balance of a wallet: balance of its held account. -/
def held_balance (s : LedgerState) (wid : Nat) : Int :=
  get_ledger_account_balance s ⟨wid, LedgerAccountKind.held⟩

/-- select(Wallet).where(Wallet.id == wid): lookup by primary key. -/
def findWallet (s : LedgerState) (wid : Nat) : Option Wallet :=
  s.wallets.find? (fun w => w.id == wid)

/-- select(Hold).where(Hold.id == hid): lookup by primary key. -/
def findHold (s : LedgerState) (hid : Nat) : Option Hold :=
  s.holds.find? (fun h => h.id == hid)

/-- select(Capture).where(Capture.id == cid): lookup by primary key. -/
def findCapture (s : LedgerState) (cid : Nat) : Option Capture :=
  s.captures.find? (fun c => c.id == cid)

/-- services/ledger.py check_idempotency: prior journal entry with the
same (idempotency_key, created_by_api_key_id), if any. -/
def check_idempotency (s : LedgerState) (idempotency_key : String) (api_key_id : Nat) :
    Option JournalEntry :=
  s.entries.find? (fun e =>
    e.idempotency_key == idempotency_key && e.created_by_api_key_id == api_key_id)

/-- Python str.endswith. -/
def strEndsWith (s suffix : String) : Bool :=
  suffix.data.isSuffixOf s.data

/-- Python str.startswith. -/
def strStartsWith (s start : String) : Bool :=
  start.data.isPrefixOf s.data

/-- Python s[:-1]: the string without its last character. -/
def strDropRight1 (s : String) : String :=
  String.mk s.data.dropLast

/-- models/api_key.py APIKey.has_scope: exact match, or a wildcard scope
ending in the two characters colon star whose text up to the star is a
prefix of the required scope. -/
def has_scope (scopes : List String) (required_scope : String) : Bool :=
  if scopes.isEmpty then false
  else scopes.any (fun scope =>
    scope == required_scope ||
      (strEndsWith scope ":*" && strStartsWith required_scope (strDropRight1 scope)))

/-- middleware/auth.py require_scope: pass the key through when it has
the required scope, else fail with forbidden_scope. -/
def require_scope (required_scope : String) (api_key : APIKey) : Except ErrorCode APIKey :=
  if has_scope api_key.scopes required_scope then Except.ok api_key
  else Except.error ErrorCode.forbidden_scope

/-- Start of the UTC day containing the given instant (seconds). -/
def startOfDay (now : Int) : Int :=
  (now / 86400) * 86400

/-- middleware/auth.py check_transaction_limit. -/
def check_transaction_limit (api_key : APIKey) (amount : Int) : Except ErrorCode Unit :=
  match api_key.per_tx_max with
  | none => Except.ok ()
  | some max_amount =>
    if amount > max_amount then Except.error ErrorCode.limit_exceeded else Except.ok ()

/-- Sum of posted debit line amounts on an account for entries created
at or after today_start (the daily-spend query of check_daily_limit). -/
def spent_today (s : LedgerState) (acc : AccountRef) (today_start : Int) : Int :=
  ((s.entries.filter (fun e =>
      e.status == JournalEntryStatus.posted && today_start ≤ e.created_at)).map
    (entryLineSum acc JournalLineDirection.debit)).sum

/-- middleware/auth.py check_daily_limit: with no configured daily_max,
or no available ledger account row for the wallet, the check passes. -/
def check_daily_limit (s : LedgerState) (api_key : APIKey) (amount : Int) (now : Int) :
    Except ErrorCode Unit :=
  match api_key.daily_max with
  | none => Except.ok ()
  | some max_amount =>
    if s.accounts.contains ⟨api_key.wallet_id, LedgerAccountKind.available⟩ then
      if spent_today s ⟨api_key.wallet_id, LedgerAccountKind.available⟩ (startOfDay now)
          + amount > max_amount then
        Except.error ErrorCode.limit_exceeded
      else Except.ok ()
    else Except.ok ()

/-- middleware/auth.py check_counterparty_allowlist (the Python
truthiness test on the handle means an empty handle never matches). -/
def check_counterparty_allowlist (api_key : APIKey) (counterparty_wallet_id : Nat)
    (counterparty_handle : Option String) : Except ErrorCode Unit :=
  match api_key.allowed_counterparties with
  | none => Except.ok ()
  | some rules =>
    let allowed_ids := (rules.filter (fun r => r.wallet_id.isSome)).map (fun r => r.wallet_id.getD 0)
    let allowed_handles := (rules.filter (fun r => r.handle.isSome)).map (fun r => r.handle.getD "")
    if allowed_ids.contains counterparty_wallet_id then Except.ok ()
    else
      match counterparty_handle with
      | some h =>
        if (h != "") && allowed_handles.contains h then Except.ok ()
        else Except.error ErrorCode.counterparty_not_allowed
      | none => Except.error ErrorCode.counterparty_not_allowed

/-- middleware/auth.py enforce_limits. -/
def enforce_limits (s : LedgerState) (api_key : APIKey) (amount : Int) (now : Int)
    (counterparty_wallet_id : Option Nat) (counterparty_handle : Option String) :
    Except ErrorCode Unit :=
  match check_transaction_limit api_key amount with
  | Except.error e => Except.error e
  | Except.ok _ =>
    match check_daily_limit s api_key amount now with
    | Except.error e => Except.error e
    | Except.ok _ =>
      match counterparty_wallet_id with
      | some cw => check_counterparty_allowlist api_key cw counterparty_handle
      | none => Except.ok ()

/-- schemas/common.py RecipientAddress (a typed recipient identifier). -/
inductive RecipientAddress where
  | wallet_id (value : Nat)
  | handle (value : String)
  | external_id (provider : String) (external_user_id : String)
deriving DecidableEq, Repr

/-- services/recipient.py _check_wallet_status. -/
def check_wallet_recipient_status (w : Wallet) : Except ErrorCode Unit :=
  if w.status = WalletStatus.frozen then Except.error ErrorCode.wallet_frozen
  else if w.status = WalletStatus.closed then Except.error ErrorCode.wallet_closed
  else Except.ok ()

/-- services/recipient.py resolve_recipient: map a recipient address to
(wallet_id, handle), rejecting frozen and closed wallets. -/
def resolve_recipient (s : LedgerState) (recipient : RecipientAddress) :
    Except ErrorCode (Nat × Option String) :=
  match recipient with
  | RecipientAddress.wallet_id v =>
    match findWallet s v with
    | none => Except.error ErrorCode.recipient_not_found
    | some w =>
      match check_wallet_recipient_status w with
      | Except.error e => Except.error e
      | Except.ok _ => Except.ok (w.id, w.handle)
  | RecipientAddress.handle v =>
    let h := if strStartsWith v "@" then v else "@" ++ v
    match s.wallets.find? (fun w => w.handle == some h) with
    | none => Except.error ErrorCode.recipient_not_found
    | some w =>
      match check_wallet_recipient_status w with
      | Except.error e => Except.error e
      | Except.ok _ => Except.ok (w.id, w.handle)
  | RecipientAddress.external_id p u =>
    match s.external_identities.find? (fun e => e.provider == p && e.external_user_id == u) with
    | none => Except.error ErrorCode.recipient_not_found
    | some ei =>
      match findWallet s ei.wallet_id with
      | none => Except.error ErrorCode.recipient_not_found
      | some w =>
        match check_wallet_recipient_status w with
        | Except.error e => Except.error e
        | Except.ok _ => Except.ok (w.id, w.handle)

/-- Failures of the posting primitive: the ValueError raised for an
unbalanced line set, and the IntegrityError raised at flush by the
uq_journal_entry_idempotency unique constraint on
(idempotency_key, created_by_api_key_id). -/
inductive LedgerError where
  | unbalanced
  | unique_violation
deriving DecidableEq, Repr

/-- Sum of the debit amounts of a proposed line set. -/
def total_debits (lines : List JournalLine) : Int :=
  ((lines.filter (fun l => l.direction == JournalLineDirection.debit)).map
    (fun l => l.amount)).sum

/-- Sum of the credit amounts of a proposed line set. -/
def total_credits (lines : List JournalLine) : Int :=
  ((lines.filter (fun l => l.direction == JournalLineDirection.credit)).map
    (fun l => l.amount)).sum

/-- services/ledger.py create_journal_entry: reject an unbalanced line
set with ValueError, otherwise insert a posted entry and its lines; the
insert trips the unique constraint when the (idempotency_key, creator)
pair already has an entry. -/
def create_journal_entry (s : LedgerState) (entry_type : JournalEntryType) (api_key_id : Nat)
    (idempotency_key : String) (lines : List JournalLine) (reference_id : Option String)
    (now : Int) : Except LedgerError (JournalEntry × LedgerState) :=
  if total_debits lines ≠ total_credits lines then Except.error LedgerError.unbalanced
  else if (check_idempotency s idempotency_key api_key_id).isSome then
    Except.error LedgerError.unique_violation
  else
    let entry : JournalEntry :=
      { id := s.next_id, type := entry_type, status := JournalEntryStatus.posted,
        idempotency_key := idempotency_key, reference_id := reference_id,
        created_by_api_key_id := api_key_id, created_at := now, lines := lines }
    Except.ok (entry, { s with entries := entry :: s.entries, next_id := s.next_id + 1 })

/-- services/ledger.py get_or_create_ledger_accounts: make sure both the
available and the held account row exist for the wallet. -/
def get_or_create_ledger_accounts (s : LedgerState) (wid : Nat) : LedgerState :=
  let s1 := if s.accounts.contains ⟨wid, LedgerAccountKind.available⟩ then s
            else { s with accounts := ⟨wid, LedgerAccountKind.available⟩ :: s.accounts }
  if s1.accounts.contains ⟨wid, LedgerAccountKind.held⟩ then s1
  else { s1 with accounts := ⟨wid, LedgerAccountKind.held⟩ :: s1.accounts }

/-- schemas/transfer.py TransferResponse (the fields the core fills). -/
structure TransferResponse where
  id : Nat
  journal_entry_id : Nat
  from_wallet_id : Nat
  to_wallet_id : Nat
  amount : Int
  currency : String
  reference_id : Option String
  created_at : Int
deriving DecidableEq, Repr

/-- services/ledger.py _build_transfer_response: rebuild the response of
an idempotent replay from the stored entry; the credit line names the
destination account, whose row carries the destination wallet id. -/
def build_transfer_response (entry : JournalEntry) (from_wallet_id : Nat) :
    Except ErrorCode TransferResponse :=
  match entry.lines.find? (fun l => l.direction == JournalLineDirection.credit) with
  | none => Except.error ErrorCode.internal_error
  | some credit_line =>
    Except.ok
      { id := entry.id, journal_entry_id := entry.id, from_wallet_id := from_wallet_id,
        to_wallet_id := credit_line.ledger_account_id.wallet_id,
        amount := credit_line.amount, currency := credit_line.currency,
        reference_id := entry.reference_id, created_at := entry.created_at }

/-- services/ledger.py create_transfer, step for step: amount check,
idempotency probe (replay on any prior entry of the key and creator),
recipient resolution, self-transfer check, source wallet status and
currency checks, destination currency check, limit enforcement, account
creation, balance check, then the two-line transfer posting. -/
def create_transfer (s : LedgerState) (api_key : APIKey) (from_wallet_id : Nat)
    (to_recipient : RecipientAddress) (amount : Int) (currency : String)
    (idempotency_key : String) (reference_id : Option String) (now : Int) :
    Except ErrorCode (TransferResponse × LedgerState) :=
  if amount ≤ 0 then Except.error ErrorCode.invalid_amount
  else
    match check_idempotency s idempotency_key api_key.id with
    | some existing_entry =>
      match build_transfer_response existing_entry from_wallet_id with
      | Except.error e => Except.error e
      | Except.ok r => Except.ok (r, s)
    | none =>
      match resolve_recipient s to_recipient with
      | Except.error e => Except.error e
      | Except.ok (to_wallet_id, to_handle) =>
        if from_wallet_id = to_wallet_id then Except.error ErrorCode.self_transfer
        else
          match findWallet s from_wallet_id with
          | none => Except.error ErrorCode.internal_error
          | some from_wallet =>
            if from_wallet.status ≠ WalletStatus.active then
              Except.error ErrorCode.wallet_not_active
            else if from_wallet.currency ≠ currency then
              Except.error ErrorCode.currency_mismatch
            else
              match findWallet s to_wallet_id with
              | none => Except.error ErrorCode.internal_error
              | some to_wallet =>
                if to_wallet.currency ≠ currency then
                  Except.error ErrorCode.currency_mismatch
                else
                  match enforce_limits s api_key amount now (some to_wallet_id) to_handle with
                  | Except.error e => Except.error e
                  | Except.ok _ =>
                    let s1 := get_or_create_ledger_accounts
                      (get_or_create_ledger_accounts s from_wallet_id) to_wallet_id
                    if get_ledger_account_balance s1
                        ⟨from_wallet_id, LedgerAccountKind.available⟩ < amount then
                      Except.error ErrorCode.insufficient_funds
                    else
                      match create_journal_entry s1 JournalEntryType.transfer api_key.id
                          idempotency_key
                          [⟨⟨from_wallet_id, LedgerAccountKind.available⟩,
                              JournalLineDirection.debit, amount, currency⟩,
                           ⟨⟨to_wallet_id, LedgerAccountKind.available⟩,
                              JournalLineDirection.credit, amount, currency⟩]
                          reference_id now with
                      | Except.error _ => Except.error ErrorCode.internal_error
                      | Except.ok (entry, s2) =>
                        Except.ok
                          ({ id := entry.id, journal_entry_id := entry.id,
                             from_wallet_id := from_wallet_id, to_wallet_id := to_wallet_id,
                             amount := amount, currency := currency,
                             reference_id := reference_id,
                             created_at := entry.created_at }, s2)

/-- models/hold.py Hold.is_expired (now is past expires_at). -/
def Hold.is_expired (h : Hold) (now : Int) : Bool :=
  decide (h.expires_at < now)

/-- models/hold.py Hold.can_capture. -/
def Hold.can_capture (h : Hold) (now : Int) : Bool :=
  h.status == HoldStatus.active && !(h.is_expired now) && decide (0 < h.remaining_amount)

/-- models/hold.py Hold.can_release (expiry is not checked). -/
def Hold.can_release (h : Hold) : Bool :=
  h.status == HoldStatus.active && decide (0 < h.remaining_amount)

/-- schemas/hold.py HoldResponse (the fields the core fills). -/
structure HoldResponse where
  id : Nat
  wallet_id : Nat
  amount : Int
  remaining_amount : Int
  currency : String
  status : HoldStatus
  expires_at : Int
deriving DecidableEq, Repr

/-- The HoldResponse built from a hold row. -/
def holdResponseOf (h : Hold) : HoldResponse :=
  { id := h.id, wallet_id := h.wallet_id, amount := h.amount,
    remaining_amount := h.remaining_amount, currency := h.currency,
    status := h.status, expires_at := h.expires_at }

/-- services/holds.py create_hold: amount check, idempotent replay from
the holds table on (idempotency_key, creator), wallet status and
currency checks, limits, balance check, then post debit available and
credit held and persist the hold row with remaining_amount = amount. -/
def create_hold (s : LedgerState) (api_key : APIKey) (wallet_id : Nat) (amount : Int)
    (currency : String) (idempotency_key : String) (expires_in_seconds : Int) (now : Int) :
    Except ErrorCode (HoldResponse × LedgerState) :=
  if amount ≤ 0 then Except.error ErrorCode.invalid_amount
  else
    match s.holds.find? (fun h =>
        h.idempotency_key == idempotency_key && h.created_by_api_key_id == api_key.id) with
    | some existing_hold => Except.ok (holdResponseOf existing_hold, s)
    | none =>
      match findWallet s wallet_id with
      | none => Except.error ErrorCode.internal_error
      | some wallet =>
        if wallet.status ≠ WalletStatus.active then Except.error ErrorCode.wallet_not_active
        else if wallet.currency ≠ currency then Except.error ErrorCode.currency_mismatch
        else
          match enforce_limits s api_key amount now none none with
          | Except.error e => Except.error e
          | Except.ok _ =>
            let s1 := get_or_create_ledger_accounts s wallet_id
            if get_ledger_account_balance s1 ⟨wallet_id, LedgerAccountKind.available⟩
                < amount then
              Except.error ErrorCode.insufficient_funds
            else
              match create_journal_entry s1 JournalEntryType.hold api_key.id idempotency_key
                  [⟨⟨wallet_id, LedgerAccountKind.available⟩,
                      JournalLineDirection.debit, amount, currency⟩,
                   ⟨⟨wallet_id, LedgerAccountKind.held⟩,
                      JournalLineDirection.credit, amount, currency⟩]
                  none now with
              | Except.error _ => Except.error ErrorCode.internal_error
              | Except.ok (_entry, s2) =>
                let hold : Hold :=
                  { id := s2.next_id, wallet_id := wallet_id, amount := amount,
                    remaining_amount := amount, currency := currency,
                    status := HoldStatus.active, expires_at := now + expires_in_seconds,
                    created_by_api_key_id := api_key.id, idempotency_key := idempotency_key }
                Except.ok (holdResponseOf hold,
                  { s2 with holds := hold :: s2.holds, next_id := s2.next_id + 1 })

/-- schemas/hold.py CaptureResponse (the fields the core fills). -/
structure CaptureResponse where
  id : Nat
  hold_id : Nat
  to_wallet_id : Nat
  amount : Int
  currency : String
  journal_entry_id : Nat
deriving DecidableEq, Repr

/-- The CaptureResponse built from a capture row. -/
def captureResponseOf (c : Capture) : CaptureResponse :=
  { id := c.id, hold_id := c.hold_id, to_wallet_id := c.to_wallet_id,
    amount := c.amount, currency := c.currency, journal_entry_id := c.journal_entry_id }

/-- services/holds.py capture_hold: idempotent replay from the captures
table on the key alone, hold lookup, ownership check, can_capture check
(hold_expired on an expired hold, hold_not_capturable otherwise), amount
checks against remaining_amount, recipient resolution and currency
check, limits, then post debit held and credit recipient available,
decrement remaining_amount, and mark the hold captured when it hits 0. -/
def capture_hold (s : LedgerState) (api_key : APIKey) (hold_id : Nat)
    (to_recipient : RecipientAddress) (amount : Option Int) (idempotency_key : String)
    (now : Int) : Except ErrorCode (CaptureResponse × LedgerState) :=
  match s.captures.find? (fun c => c.idempotency_key == idempotency_key) with
  | some existing_capture => Except.ok (captureResponseOf existing_capture, s)
  | none =>
    match findHold s hold_id with
    | none => Except.error ErrorCode.hold_not_found
    | some hold =>
      if hold.wallet_id ≠ api_key.wallet_id then Except.error ErrorCode.forbidden
      else if !(hold.can_capture now) then
        (if hold.is_expired now then Except.error ErrorCode.hold_expired
         else Except.error ErrorCode.hold_not_capturable)
      else
        let capture_amount := amount.getD hold.remaining_amount
        if capture_amount ≤ 0 then Except.error ErrorCode.invalid_amount
        else if hold.remaining_amount < capture_amount then
          Except.error ErrorCode.amount_exceeds_hold
        else
          match resolve_recipient s to_recipient with
          | Except.error e => Except.error e
          | Except.ok (to_wallet_id, to_handle) =>
            match findWallet s to_wallet_id with
            | none => Except.error ErrorCode.internal_error
            | some to_wallet =>
              if to_wallet.currency ≠ hold.currency then
                Except.error ErrorCode.currency_mismatch
              else
                match enforce_limits s api_key capture_amount now
                    (some to_wallet_id) to_handle with
                | Except.error e => Except.error e
                | Except.ok _ =>
                  let s1 := get_or_create_ledger_accounts
                    (get_or_create_ledger_accounts s hold.wallet_id) to_wallet_id
                  match create_journal_entry s1 JournalEntryType.capture api_key.id
                      idempotency_key
                      [⟨⟨hold.wallet_id, LedgerAccountKind.held⟩,
                          JournalLineDirection.debit, capture_amount, hold.currency⟩,
                       ⟨⟨to_wallet_id, LedgerAccountKind.available⟩,
                          JournalLineDirection.credit, capture_amount, hold.currency⟩]
                      none now with
                  | Except.error _ => Except.error ErrorCode.internal_error
                  | Except.ok (entry, s2) =>
                    let hold2 : Hold :=
                      { hold with
                        remaining_amount := hold.remaining_amount - capture_amount,
                        status := if hold.remaining_amount - capture_amount = 0 then
                            HoldStatus.captured
                          else hold.status }
                    let capture : Capture :=
                      { id := s2.next_id, hold_id := hold.id, to_wallet_id := to_wallet_id,
                        amount := capture_amount, currency := hold.currency,
                        journal_entry_id := entry.id, idempotency_key := idempotency_key,
                        refunded_amount := 0 }
                    Except.ok (captureResponseOf capture,
                      { s2 with
                        holds := s2.holds.map (fun h => if h.id == hold.id then hold2 else h),
                        captures := capture :: s2.captures,
                        next_id := s2.next_id + 1 })

/-- schemas/hold.py ReleaseResponse (the fields the core fills). -/
structure ReleaseResponse where
  id : Nat
  hold_id : Nat
  amount : Int
  currency : String
  journal_entry_id : Nat
deriving DecidableEq, Repr

/-- services/holds.py release_hold from the hold lookup down (the code
that runs when the idempotency probe does not replay): ownership check,
can_release check (expiry is not checked), amount checks, then post
debit held and credit available, decrement remaining_amount, and mark
the hold released when it hits 0. -/
def release_hold_after_probe (s : LedgerState) (api_key : APIKey) (hold_id : Nat)
    (amount : Option Int) (idempotency_key : String) (now : Int) :
    Except ErrorCode (ReleaseResponse × LedgerState) :=
  match findHold s hold_id with
  | none => Except.error ErrorCode.hold_not_found
  | some hold =>
    if hold.wallet_id ≠ api_key.wallet_id then Except.error ErrorCode.forbidden
    else if !hold.can_release then Except.error ErrorCode.hold_not_releasable
    else
      let release_amount := amount.getD hold.remaining_amount
      if release_amount ≤ 0 then Except.error ErrorCode.invalid_amount
      else if hold.remaining_amount < release_amount then
        Except.error ErrorCode.amount_exceeds_hold
      else
        let s1 := get_or_create_ledger_accounts s hold.wallet_id
        match create_journal_entry s1 JournalEntryType.release api_key.id idempotency_key
            [⟨⟨hold.wallet_id, LedgerAccountKind.held⟩,
                JournalLineDirection.debit, release_amount, hold.currency⟩,
             ⟨⟨hold.wallet_id, LedgerAccountKind.available⟩,
                JournalLineDirection.credit, release_amount, hold.currency⟩]
            none now with
        | Except.error _ => Except.error ErrorCode.internal_error
        | Except.ok (entry, s2) =>
          let hold2 : Hold :=
            { hold with
              remaining_amount := hold.remaining_amount - release_amount,
              status := if hold.remaining_amount - release_amount = 0 then
                  HoldStatus.released
                else hold.status }
          Except.ok
            ({ id := entry.id, hold_id := hold.id, amount := release_amount,
               currency := hold.currency, journal_entry_id := entry.id },
             { s2 with
               holds := s2.holds.map (fun h => if h.id == hold.id then hold2 else h) })

/-- services/holds.py release_hold: the idempotency probe replays only
when the prior entry of (idempotency_key, creator) has type release
(reading the release amount off the credit line and echoing the hold_id
of the current request); any other outcome of the probe falls through
to the code modelled by release_hold_after_probe. -/
def release_hold (s : LedgerState) (api_key : APIKey) (hold_id : Nat)
    (amount : Option Int) (idempotency_key : String) (now : Int) :
    Except ErrorCode (ReleaseResponse × LedgerState) :=
  match check_idempotency s idempotency_key api_key.id with
  | some existing_entry =>
    if existing_entry.type == JournalEntryType.release then
      match existing_entry.lines.find?
          (fun l => l.direction == JournalLineDirection.credit) with
      | none => Except.error ErrorCode.internal_error
      | some credit_line =>
        Except.ok
          ({ id := existing_entry.id, hold_id := hold_id,
             amount := credit_line.amount, currency := credit_line.currency,
             journal_entry_id := existing_entry.id }, s)
    else release_hold_after_probe s api_key hold_id amount idempotency_key now
  | none => release_hold_after_probe s api_key hold_id amount idempotency_key now

/-- schemas/refund.py RefundResponse (the fields the core fills). -/
structure RefundResponse where
  id : Nat
  capture_id : Nat
  amount : Int
  currency : String
  journal_entry_id : Nat
deriving DecidableEq, Repr

/-- The RefundResponse built from a refund row. -/
def refundResponseOf (r : Refund) : RefundResponse :=
  { id := r.id, capture_id := r.capture_id, amount := r.amount, currency := r.currency,
    journal_entry_id := r.journal_entry_id }

/-- services/refunds.py create_refund: idempotent replay from the
refunds table on the key alone (before any other check), capture
lookup, merchant check (the caller wallet must be the capture
destination), amount checks against the refundable amount, payer lookup
through the hold, merchant wallet status check, merchant balance check,
then post debit merchant available and credit payer available and add
the refund amount to capture.refunded_amount. -/
def create_refund (s : LedgerState) (api_key : APIKey) (capture_id : Nat)
    (amount : Option Int) (idempotency_key : String) (now : Int) :
    Except ErrorCode (RefundResponse × LedgerState) :=
  match s.refunds.find? (fun r => r.idempotency_key == idempotency_key) with
  | some existing_refund => Except.ok (refundResponseOf existing_refund, s)
  | none =>
    match findCapture s capture_id with
    | none => Except.error ErrorCode.capture_not_found
    | some capture =>
      if capture.to_wallet_id ≠ api_key.wallet_id then Except.error ErrorCode.forbidden
      else
        let refund_amount := amount.getD capture.refundable_amount
        if refund_amount ≤ 0 then Except.error ErrorCode.invalid_amount
        else if capture.refundable_amount < refund_amount then
          Except.error ErrorCode.amount_exceeds_refundable
        else
          match findHold s capture.hold_id with
          | none => Except.error ErrorCode.internal_error
          | some hold =>
            match findWallet s capture.to_wallet_id with
            | none => Except.error ErrorCode.internal_error
            | some merchant_wallet =>
              if merchant_wallet.status ≠ WalletStatus.active then
                Except.error ErrorCode.wallet_not_active
              else
                let s1 := get_or_create_ledger_accounts
                  (get_or_create_ledger_accounts s capture.to_wallet_id) hold.wallet_id
                if get_ledger_account_balance s1
                    ⟨capture.to_wallet_id, LedgerAccountKind.available⟩ < refund_amount then
                  Except.error ErrorCode.insufficient_funds
                else
                  match create_journal_entry s1 JournalEntryType.refund api_key.id
                      idempotency_key
                      [⟨⟨capture.to_wallet_id, LedgerAccountKind.available⟩,
                          JournalLineDirection.debit, refund_amount, capture.currency⟩,
                       ⟨⟨hold.wallet_id, LedgerAccountKind.available⟩,
                          JournalLineDirection.credit, refund_amount, capture.currency⟩]
                      (some (toString capture.id)) now with
                  | Except.error _ => Except.error ErrorCode.internal_error
                  | Except.ok (entry, s2) =>
                    let refund : Refund :=
                      { id := s2.next_id, capture_id := capture.id, amount := refund_amount,
                        currency := capture.currency, journal_entry_id := entry.id,
                        idempotency_key := idempotency_key }
                    Except.ok (refundResponseOf refund,
                      { s2 with
                        captures := s2.captures.map (fun c =>
                          if c.id == capture.id then
                            { c with refunded_amount := c.refunded_amount + refund_amount }
                          else c),
                        refunds := refund :: s2.refunds,
                        next_id := s2.next_id + 1 })

/-! Helper lemmas about the embedding. -/

theorem get_or_create_entries (s : LedgerState) (wid : Nat) :
    (get_or_create_ledger_accounts s wid).entries = s.entries := by
  simp only [get_or_create_ledger_accounts]
  split <;> split <;> rfl

theorem get_or_create_holds (s : LedgerState) (wid : Nat) :
    (get_or_create_ledger_accounts s wid).holds = s.holds := by
  simp only [get_or_create_ledger_accounts]
  split <;> split <;> rfl

theorem get_or_create_captures (s : LedgerState) (wid : Nat) :
    (get_or_create_ledger_accounts s wid).captures = s.captures := by
  simp only [get_or_create_ledger_accounts]
  split <;> split <;> rfl

theorem get_or_create_refunds (s : LedgerState) (wid : Nat) :
    (get_or_create_ledger_accounts s wid).refunds = s.refunds := by
  simp only [get_or_create_ledger_accounts]
  split <;> split <;> rfl

theorem get_or_create_next_id (s : LedgerState) (wid : Nat) :
    (get_or_create_ledger_accounts s wid).next_id = s.next_id := by
  simp only [get_or_create_ledger_accounts]
  split <;> split <;> rfl

theorem check_idempotency_congr {s1 s : LedgerState} (ik : String) (kid : Nat)
    (h : s1.entries = s.entries) :
    check_idempotency s1 ik kid = check_idempotency s ik kid := by
  unfold check_idempotency
  rw [h]

theorem balance_congr {s1 s : LedgerState} (acc : AccountRef)
    (h : s1.entries = s.entries) :
    get_ledger_account_balance s1 acc = get_ledger_account_balance s acc := by
  unfold get_ledger_account_balance
  rw [h]

theorem balance_entries_cons {s2 s : LedgerState} (e : JournalEntry) (acc : AccountRef)
    (h : s2.entries = e :: s.entries) (hst : e.status = JournalEntryStatus.posted) :
    get_ledger_account_balance s2 acc =
      get_ledger_account_balance s acc
        + entryLineSum acc JournalLineDirection.credit e
        - entryLineSum acc JournalLineDirection.debit e := by
  unfold get_ledger_account_balance
  rw [h]
  simp [List.filter_cons, hst]
  ring

theorem entryLineSum_pair (acc a1 a2 : AccountRef) (x y : Int) (c1 c2 : String)
    (e : JournalEntry)
    (h : e.lines = [⟨a1, JournalLineDirection.debit, x, c1⟩,
                    ⟨a2, JournalLineDirection.credit, y, c2⟩]) :
    entryLineSum acc JournalLineDirection.credit e = (if a2 = acc then y else 0) ∧
    entryLineSum acc JournalLineDirection.debit e = (if a1 = acc then x else 0) := by
  unfold entryLineSum
  rw [h]
  constructor
  · simp only [List.filter_cons, List.filter_nil]
    by_cases h2 : a2 = acc <;> simp [h2]
  · simp only [List.filter_cons, List.filter_nil]
    by_cases h1 : a1 = acc <;> simp [h1]

theorem create_journal_entry_ok {s s2 : LedgerState} {t : JournalEntryType} {kid : Nat}
    {ik : String} {lines : List JournalLine} {ref : Option String} {now : Int}
    {e : JournalEntry}
    (h : create_journal_entry s t kid ik lines ref now = Except.ok (e, s2)) :
    total_debits lines = total_credits lines ∧
    check_idempotency s ik kid = none ∧
    e = { id := s.next_id, type := t, status := JournalEntryStatus.posted,
          idempotency_key := ik, reference_id := ref, created_by_api_key_id := kid,
          created_at := now, lines := lines } ∧
    s2 = { s with entries := e :: s.entries, next_id := s.next_id + 1 } := by
  unfold create_journal_entry at h
  split at h
  · exact absurd h (by simp)
  · split at h
    · exact absurd h (by simp)
    · rename_i hbal hidem
      simp only [Except.ok.injEq, Prod.mk.injEq] at h
      obtain ⟨he, hs⟩ := h
      subst he
      subst hs
      refine ⟨not_ne_iff.mp hbal, ?_, rfl, rfl⟩
      cases hck : check_idempotency s ik kid with
      | none => rfl
      | some v => rw [hck] at hidem; simp at hidem

/-! Claim C8: scope matching. -/

/-- The wildcard rule exactly as the claim words it: any scope string
ending in a star grants every required scope that starts with the text
before the star. -/
def claimScopeGrants (scopes : List String) (required_scope : String) : Bool :=
  scopes.any (fun scope =>
    scope == required_scope ||
      (strEndsWith scope "*" && strStartsWith required_scope (strDropRight1 scope)))

theorem has_scope_iff (scopes : List String) (required_scope : String) :
    has_scope scopes required_scope = true ↔
      (required_scope ∈ scopes ∨
        ∃ scope ∈ scopes, strEndsWith scope ":*" = true ∧
          strStartsWith required_scope (strDropRight1 scope) = true) := by
  unfold has_scope
  cases scopes with
  | nil => simp
  | cons a l =>
    simp only [List.isEmpty_cons, Bool.false_eq_true, if_false, List.any_eq_true,
      Bool.or_eq_true, Bool.and_eq_true, beq_iff_eq]
    constructor
    · rintro ⟨x, hx, hxe | hw⟩
      · exact Or.inl (hxe ▸ hx)
      · exact Or.inr ⟨x, hx, hw.1, hw.2⟩
    · rintro (hmem | ⟨x, hx, h1, h2⟩)
      · exact ⟨required_scope, hmem, Or.inl rfl⟩
      · exact ⟨x, hx, Or.inr ⟨h1, h2⟩⟩

/-- C8 counterexample: the scope admin-star (no colon) followed by the
required scope administration.  Under the claim rule the characters up
to the star, admin, are a prefix of administration, so access would be
granted; has_scope refuses it because the wildcard branch demands the
two-character suffix colon star, and require_scope answers
forbidden_scope. -/
theorem scope_wildcard_counterexample :
    claimScopeGrants ["admin*"] "administration" = true ∧
    has_scope ["admin*"] "administration" = false ∧
    require_scope "administration" ⟨1, 1, ["admin*"], none, none, none⟩ =
      Except.error ErrorCode.forbidden_scope :=
  ⟨by decide, by decide, by rfl⟩

/-- C8 (amended): access is granted exactly when the key's scope set
contains the required scope, or contains a scope ending in the
two-character suffix colon star whose characters up to the star
(including the colon) are a prefix of the required scope; otherwise
require_scope fails with forbidden_scope. -/
theorem scope_match_colon_star_amended (api_key : APIKey) (required_scope : String) :
    (require_scope required_scope api_key = Except.ok api_key ↔
      (required_scope ∈ api_key.scopes ∨
        ∃ scope ∈ api_key.scopes, strEndsWith scope ":*" = true ∧
          strStartsWith required_scope (strDropRight1 scope) = true)) ∧
    (require_scope required_scope api_key = Except.error ErrorCode.forbidden_scope ↔
      ¬(required_scope ∈ api_key.scopes ∨
        ∃ scope ∈ api_key.scopes, strEndsWith scope ":*" = true ∧
          strStartsWith required_scope (strDropRight1 scope) = true)) := by
  have h := has_scope_iff api_key.scopes required_scope
  unfold require_scope
  by_cases hs : has_scope api_key.scopes required_scope = true
  · rw [if_pos hs]
    exact ⟨by simp [h.mp hs], by simp [h.mp hs]⟩
  · rw [if_neg hs]
    have hrhs := fun hr => hs (h.mpr hr)
    constructor
    · exact ⟨fun hx => by simp at hx, fun hr => absurd hr hrhs⟩
    · exact ⟨fun _ => hrhs, fun _ => rfl⟩

/-! Claim C3: validation done by the posting primitive. -/

/-- The four validity conditions the claim attributes to
create_journal_entry: balanced, one shared currency, all amounts
strictly positive, at least two lines. -/
def claimLinesValid (lines : List JournalLine) : Bool :=
  decide (total_debits lines = total_credits lines) &&
  lines.all (fun l => lines.all (fun l2 => l.currency == l2.currency)) &&
  lines.all (fun l => decide (0 < l.amount)) &&
  decide (2 ≤ lines.length)

/-- The entry record create_journal_entry builds on its success path. -/
def newJournalEntry (s : LedgerState) (t : JournalEntryType) (kid : Nat) (ik : String)
    (lines : List JournalLine) (ref : Option String) (now : Int) : JournalEntry :=
  { id := s.next_id, type := t, status := JournalEntryStatus.posted, idempotency_key := ik,
    reference_id := ref, created_by_api_key_id := kid, created_at := now, lines := lines }

/-- A state with no rows at all. -/
def emptyLedgerState : LedgerState :=
  { wallets := [], accounts := [], entries := [], holds := [], captures := [],
    refunds := [], external_identities := [], next_id := 0 }

/-- A balanced two-line set whose two lines carry different currencies. -/
def mixedCurrencyLines : List JournalLine :=
  [⟨⟨1, LedgerAccountKind.available⟩, JournalLineDirection.debit, 5, "USD"⟩,
   ⟨⟨2, LedgerAccountKind.available⟩, JournalLineDirection.credit, 5, "EUR"⟩]

/-- C3 counterexample: a balanced line set mixing USD and EUR violates
the claim conditions, yet create_journal_entry accepts it and creates
an entry, because the source validates only that debits equal
credits. -/
theorem journal_entry_validation_counterexample :
    claimLinesValid mixedCurrencyLines = false ∧
    (create_journal_entry emptyLedgerState JournalEntryType.transfer 7 "k"
        mixedCurrencyLines none 0).toOption.isSome = true :=
  ⟨by decide, by decide⟩

/-- C3 (amended): create_journal_entry creates a posted entry exactly
when the debit total equals the credit total and the
(idempotency_key, creator) pair is not already taken (the database
uniqueness constraint); the shared-currency, positive-amount and
two-line conditions of the claim are not checked, and the only
rejection the function itself raises is for an unbalanced line set. -/
theorem journal_entry_balance_only_validation (s : LedgerState) (t : JournalEntryType)
    (kid : Nat) (ik : String) (lines : List JournalLine) (ref : Option String) (now : Int) :
    (∃ e s2, create_journal_entry s t kid ik lines ref now = Except.ok (e, s2) ∧
        e.status = JournalEntryStatus.posted ∧ e.lines = lines ∧
        s2.entries = e :: s.entries) ↔
      (total_debits lines = total_credits lines ∧ check_idempotency s ik kid = none) := by
  constructor
  · rintro ⟨e, s2, hok, -, -, -⟩
    obtain ⟨hb, hf, -, -⟩ := create_journal_entry_ok hok
    exact ⟨hb, hf⟩
  · rintro ⟨hb, hf⟩
    have hrun : create_journal_entry s t kid ik lines ref now = Except.ok
        (newJournalEntry s t kid ik lines ref now,
         { s with entries := newJournalEntry s t kid ik lines ref now :: s.entries,
                  next_id := s.next_id + 1 }) := by
      unfold create_journal_entry newJournalEntry
      rw [if_neg (not_ne_iff.mpr hb), hf]
      rfl
    exact ⟨_, _, hrun, rfl, rfl, rfl⟩

/-! Claim C9: refund idempotency replay is matched on the key alone. -/

/-- C9: when a refund row with the requested idempotency key exists,
create_refund returns it at once, for any calling key and any
capture_id, with the state unchanged; the capture lookup and the
merchant check never run. -/
theorem refund_replay_bypasses_merchant_check (s : LedgerState) (ik : String) (r : Refund)
    (hfound : s.refunds.find? (fun x => x.idempotency_key == ik) = some r) :
    ∀ (api_key : APIKey) (capture_id : Nat) (amount : Option Int) (now : Int),
      create_refund s api_key capture_id amount ik now =
        Except.ok (refundResponseOf r, s) := by
  intro api_key capture_id amount now
  unfold create_refund
  rw [hfound]

/-- A stored refund row used by concrete instantiations. -/
def exRefund : Refund :=
  { id := 3, capture_id := 2, amount := 30, currency := "USD",
    journal_entry_id := 1, idempotency_key := "rf1" }

/-- A state holding only that refund row. -/
def exRefundState : LedgerState :=
  { wallets := [], accounts := [], entries := [], holds := [], captures := [],
    refunds := [exRefund], external_identities := [], next_id := 10 }

/-- A key of a wallet unrelated to the stored refund. -/
def exOtherKey : APIKey :=
  { id := 9, wallet_id := 42, scopes := [], per_tx_max := none, daily_max := none,
    allowed_counterparties := none }

/-- C9 witness: a key of an unrelated wallet, naming a nonexistent
capture, replays the stored refund with no error and no state change. -/
theorem refund_replay_bypasses_merchant_check_witness :
    create_refund exRefundState exOtherKey 555 none "rf1" 0 =
      Except.ok (refundResponseOf exRefund, exRefundState) :=
  refund_replay_bypasses_merchant_check exRefundState "rf1" exRefund (by rfl)
    exOtherKey 555 none 0

/-! Claim C2: the operation family and idempotency conflicts. -/

theorem create_journal_entry_dup_errors (s : LedgerState) (t : JournalEntryType)
    (kid : Nat) (ik : String) (lines : List JournalLine) (ref : Option String) (now : Int)
    (hfound : (check_idempotency s ik kid).isSome = true) :
    ∃ le, create_journal_entry s t kid ik lines ref now = Except.error le := by
  unfold create_journal_entry
  by_cases hb : total_debits lines ≠ total_credits lines
  · rw [if_pos hb]
    exact ⟨_, rfl⟩
  · rw [if_neg hb, if_pos hfound]
    exact ⟨_, rfl⟩

theorem release_after_probe_errors (s : LedgerState) (api_key : APIKey) (hid : Nat)
    (amount : Option Int) (ik : String) (now : Int)
    (hfound : (check_idempotency s ik api_key.id).isSome = true) :
    ∃ err, release_hold_after_probe s api_key hid amount ik now = Except.error err := by
  simp only [release_hold_after_probe]
  split
  · exact ⟨_, rfl⟩
  · rename_i hold hfh
    split
    · exact ⟨_, rfl⟩
    · split
      · exact ⟨_, rfl⟩
      · split
        · exact ⟨_, rfl⟩
        · split
          · exact ⟨_, rfl⟩
          · obtain ⟨le, hle⟩ := create_journal_entry_dup_errors
              (get_or_create_ledger_accounts s hold.wallet_id) JournalEntryType.release
              api_key.id ik
              [⟨⟨hold.wallet_id, LedgerAccountKind.held⟩, JournalLineDirection.debit,
                  amount.getD hold.remaining_amount, hold.currency⟩,
               ⟨⟨hold.wallet_id, LedgerAccountKind.available⟩, JournalLineDirection.credit,
                  amount.getD hold.remaining_amount, hold.currency⟩] none now
              (by rw [check_idempotency_congr ik api_key.id
                        (get_or_create_entries s hold.wallet_id)]
                  exact hfound)
            rw [hle]
            exact ⟨_, rfl⟩

/-- A posted hold-type journal entry whose idempotency key k is later
reused by a transfer request of the same key creator. -/
def exHoldEntry : JournalEntry :=
  { id := 5, type := JournalEntryType.hold, status := JournalEntryStatus.posted,
    idempotency_key := "k", reference_id := none, created_by_api_key_id := 7,
    created_at := 0,
    lines := [⟨⟨1, LedgerAccountKind.available⟩, JournalLineDirection.debit, 100, "USD"⟩,
              ⟨⟨1, LedgerAccountKind.held⟩, JournalLineDirection.credit, 100, "USD"⟩] }

/-- The key that created exHoldEntry. -/
def exKey : APIKey :=
  { id := 7, wallet_id := 1, scopes := [], per_tx_max := none, daily_max := none,
    allowed_counterparties := none }

/-- Two active USD wallets plus the stored hold-type entry. -/
def exC2State : LedgerState :=
  { wallets := [⟨1, WalletStatus.active, "USD", none⟩, ⟨2, WalletStatus.active, "USD", none⟩],
    accounts := [], entries := [exHoldEntry], holds := [], captures := [], refunds := [],
    external_identities := [], next_id := 10 }

/-- C2 counterexample: the stored entry of key k has type hold, yet a
transfer request reusing k by the same creator is silently accepted
with a replayed response (built from the hold entry) instead of failing
with an idempotency conflict. -/
theorem idempotency_wrong_family_accepted_counterexample :
    (check_idempotency exC2State "k" exKey.id).map (fun e => e.type) =
      some JournalEntryType.hold ∧
    ∃ r, create_transfer exC2State exKey 1 (RecipientAddress.wallet_id 2) 5 "USD" "k"
        none 0 = Except.ok (r, exC2State) :=
  ⟨by rfl, ⟨_, by rfl⟩⟩

/-- C2 (amended): on a prior journal entry with the same
(idempotency_key, creator), create_transfer replays the stored entry
whatever its type, with no conflict error and no state change; only
release_hold restricts its replay to entries of type release, and with
an entry of a different type it fails (with a state error or the
internal error from the unique constraint), never posting and never
raising a dedicated idempotency-conflict code. -/
theorem idempotency_family_amended (s : LedgerState) (api_key : APIKey) (ik : String)
    (e : JournalEntry) (hfound : check_idempotency s ik api_key.id = some e) :
    (∀ (from_wallet_id : Nat) (to_recipient : RecipientAddress) (amount : Int)
        (currency : String) (ref : Option String) (now : Int), 0 < amount →
      create_transfer s api_key from_wallet_id to_recipient amount currency ik ref now =
        (match build_transfer_response e from_wallet_id with
         | Except.error err => Except.error err
         | Except.ok r => Except.ok (r, s))) ∧
    (∀ (hold_id : Nat) (amount : Option Int) (now : Int),
        e.type ≠ JournalEntryType.release →
      ∃ err, release_hold s api_key hold_id amount ik now = Except.error err) := by
  constructor
  · intro fid rcpt amount currency ref now hpos
    unfold create_transfer
    rw [if_neg (not_le.mpr hpos), hfound]
  · intro hid amount now hne
    have hbe : (e.type == JournalEntryType.release) = false := by
      simp only [beq_eq_false_iff_ne, ne_eq]
      exact hne
    unfold release_hold
    rw [hfound]
    simp only [hbe, Bool.false_eq_true, if_false]
    exact release_after_probe_errors s api_key hid amount ik now (by rw [hfound]; rfl)

/-- C2 witness: at the concrete state of the counterexample, the
transfer request replays the hold entry, and a release request reusing
the same key fails. -/
theorem idempotency_family_amended_witness :
    create_transfer exC2State exKey 1 (RecipientAddress.wallet_id 2) 5 "USD" "k" none 0 =
      (match build_transfer_response exHoldEntry 1 with
       | Except.error err => Except.error err
       | Except.ok r => Except.ok (r, exC2State)) ∧
    ∃ err, release_hold exC2State exKey 99 none "k" 0 = Except.error err :=
  ⟨(idempotency_family_amended exC2State exKey "k" exHoldEntry (by rfl)).1
      1 (RecipientAddress.wallet_id 2) 5 "USD" none 0 (by decide),
   (idempotency_family_amended exC2State exKey "k" exHoldEntry (by rfl)).2
      99 none 0 (by decide)⟩

/-! Claim C1: transfers. -/

theorem transfer_entry_balance_effects (s : LedgerState) (s2 : LedgerState)
    (e : JournalEntry) (fid tid : Nat) (amount : Int) (currency : String)
    (hcons : s2.entries = e :: s.entries)
    (hlines : e.lines =
      [⟨⟨fid, LedgerAccountKind.available⟩, JournalLineDirection.debit, amount, currency⟩,
       ⟨⟨tid, LedgerAccountKind.available⟩, JournalLineDirection.credit, amount, currency⟩])
    (hst : e.status = JournalEntryStatus.posted)
    (hne2 : fid ≠ tid) :
    available_balance s2 fid = available_balance s fid - amount ∧
    available_balance s2 tid = available_balance s tid + amount := by
  have hacc1 : ¬((⟨tid, LedgerAccountKind.available⟩ : AccountRef) =
      ⟨fid, LedgerAccountKind.available⟩) := by
    intro hcontra
    exact hne2 (congrArg AccountRef.wallet_id hcontra).symm
  have hacc2 : ¬((⟨fid, LedgerAccountKind.available⟩ : AccountRef) =
      ⟨tid, LedgerAccountKind.available⟩) := by
    intro hcontra
    exact hne2 (congrArg AccountRef.wallet_id hcontra)
  obtain ⟨hcf, hdf⟩ := entryLineSum_pair ⟨fid, LedgerAccountKind.available⟩
    ⟨fid, LedgerAccountKind.available⟩ ⟨tid, LedgerAccountKind.available⟩
    amount amount currency currency e hlines
  obtain ⟨hct, hdt⟩ := entryLineSum_pair ⟨tid, LedgerAccountKind.available⟩
    ⟨fid, LedgerAccountKind.available⟩ ⟨tid, LedgerAccountKind.available⟩
    amount amount currency currency e hlines
  constructor
  · simp only [available_balance]
    rw [balance_entries_cons e _ hcons hst, hcf, hdf, if_neg hacc1, if_pos rfl]
    ring
  · simp only [available_balance]
    rw [balance_entries_cons e _ hcons hst, hct, hdt, if_pos rfl, if_neg hacc2]
    ring

/-- C1: for a transfer request with positive amount, a fresh
(idempotency_key, creator) pair, a resolvable recipient distinct from
the active source wallet, and matching currencies on both sides (no
limits configured on the key): when the source available balance covers
the amount, create_transfer posts exactly one posted journal entry of
type transfer whose two lines debit the source available account and
credit the recipient available account by the amount, so the source
available balance drops by the amount and the recipient available
balance rises by it; when the balance is short, the call fails with
insufficient_funds and, the failure carrying no state, nothing is
posted. -/
theorem transfer_posts_balanced_pair_or_insufficient_funds
    (s : LedgerState) (api_key : APIKey) (from_wallet_id : Nat)
    (to_recipient : RecipientAddress) (amount : Int) (currency : String)
    (ik : String) (ref : Option String) (now : Int)
    (to_wallet_id : Nat) (to_handle : Option String) (fw tw : Wallet)
    (hpos : 0 < amount)
    (hfresh : check_idempotency s ik api_key.id = none)
    (hres : resolve_recipient s to_recipient = Except.ok (to_wallet_id, to_handle))
    (hne : from_wallet_id ≠ to_wallet_id)
    (hfw : findWallet s from_wallet_id = some fw)
    (hfa : fw.status = WalletStatus.active)
    (hfc : fw.currency = currency)
    (htw : findWallet s to_wallet_id = some tw)
    (htc : tw.currency = currency)
    (hpt : api_key.per_tx_max = none)
    (hdm : api_key.daily_max = none)
    (hcp : api_key.allowed_counterparties = none) :
    (amount ≤ available_balance s from_wallet_id →
      ∃ r s2, create_transfer s api_key from_wallet_id to_recipient amount currency
          ik ref now = Except.ok (r, s2) ∧
        (∃ entry, s2.entries = entry :: s.entries ∧
          entry.type = JournalEntryType.transfer ∧
          entry.status = JournalEntryStatus.posted ∧
          entry.lines =
            [⟨⟨from_wallet_id, LedgerAccountKind.available⟩,
                JournalLineDirection.debit, amount, currency⟩,
             ⟨⟨to_wallet_id, LedgerAccountKind.available⟩,
                JournalLineDirection.credit, amount, currency⟩]) ∧
        s2.holds = s.holds ∧ s2.captures = s.captures ∧ s2.refunds = s.refunds ∧
        available_balance s2 from_wallet_id = available_balance s from_wallet_id - amount ∧
        available_balance s2 to_wallet_id = available_balance s to_wallet_id + amount) ∧
    (available_balance s from_wallet_id < amount →
      create_transfer s api_key from_wallet_id to_recipient amount currency ik ref now =
        Except.error ErrorCode.insufficient_funds) := by
  have hent : (get_or_create_ledger_accounts (get_or_create_ledger_accounts s
      from_wallet_id) to_wallet_id).entries = s.entries := by
    rw [get_or_create_entries, get_or_create_entries]
  have hlim : enforce_limits s api_key amount now (some to_wallet_id) to_handle =
      Except.ok () := by
    simp only [enforce_limits, check_transaction_limit, check_daily_limit,
      check_counterparty_allowlist, hpt, hdm, hcp]
  have hbal : get_ledger_account_balance (get_or_create_ledger_accounts
      (get_or_create_ledger_accounts s from_wallet_id) to_wallet_id)
      ⟨from_wallet_id, LedgerAccountKind.available⟩ = available_balance s from_wallet_id :=
    balance_congr _ hent
  have hfresh2 : check_idempotency (get_or_create_ledger_accounts
      (get_or_create_ledger_accounts s from_wallet_id) to_wallet_id) ik api_key.id =
      none := by
    rw [check_idempotency_congr ik api_key.id hent]
    exact hfresh
  have hbalanced : total_debits
      [⟨⟨from_wallet_id, LedgerAccountKind.available⟩,
          JournalLineDirection.debit, amount, currency⟩,
       ⟨⟨to_wallet_id, LedgerAccountKind.available⟩,
          JournalLineDirection.credit, amount, currency⟩] = total_credits
      [⟨⟨from_wallet_id, LedgerAccountKind.available⟩,
          JournalLineDirection.debit, amount, currency⟩,
       ⟨⟨to_wallet_id, LedgerAccountKind.available⟩,
          JournalLineDirection.credit, amount, currency⟩] := by
    simp [total_debits, total_credits]
  have hcj : create_journal_entry (get_or_create_ledger_accounts
      (get_or_create_ledger_accounts s from_wallet_id) to_wallet_id)
      JournalEntryType.transfer api_key.id ik
      [⟨⟨from_wallet_id, LedgerAccountKind.available⟩,
          JournalLineDirection.debit, amount, currency⟩,
       ⟨⟨to_wallet_id, LedgerAccountKind.available⟩,
          JournalLineDirection.credit, amount, currency⟩] ref now = Except.ok
      (newJournalEntry (get_or_create_ledger_accounts
        (get_or_create_ledger_accounts s from_wallet_id) to_wallet_id)
        JournalEntryType.transfer api_key.id ik
        [⟨⟨from_wallet_id, LedgerAccountKind.available⟩,
            JournalLineDirection.debit, amount, currency⟩,
         ⟨⟨to_wallet_id, LedgerAccountKind.available⟩,
            JournalLineDirection.credit, amount, currency⟩] ref now,
       { (get_or_create_ledger_accounts
           (get_or_create_ledger_accounts s from_wallet_id) to_wallet_id) with
         entries := newJournalEntry (get_or_create_ledger_accounts
             (get_or_create_ledger_accounts s from_wallet_id) to_wallet_id)
             JournalEntryType.transfer api_key.id ik
             [⟨⟨from_wallet_id, LedgerAccountKind.available⟩,
                 JournalLineDirection.debit, amount, currency⟩,
              ⟨⟨to_wallet_id, LedgerAccountKind.available⟩,
                 JournalLineDirection.credit, amount, currency⟩] ref now ::
           (get_or_create_ledger_accounts
             (get_or_create_ledger_accounts s from_wallet_id) to_wallet_id).entries,
         next_id := (get_or_create_ledger_accounts
           (get_or_create_ledger_accounts s from_wallet_id) to_wallet_id).next_id + 1 }) := by
    unfold create_journal_entry newJournalEntry
    rw [if_neg (not_ne_iff.mpr hbalanced), hfresh2]
    rfl
  constructor
  · intro hsuf
    have hrunEq : create_transfer s api_key from_wallet_id to_recipient amount currency
        ik ref now = Except.ok
        ({ id := (newJournalEntry (get_or_create_ledger_accounts
              (get_or_create_ledger_accounts s from_wallet_id) to_wallet_id)
              JournalEntryType.transfer api_key.id ik
              [⟨⟨from_wallet_id, LedgerAccountKind.available⟩,
                  JournalLineDirection.debit, amount, currency⟩,
               ⟨⟨to_wallet_id, LedgerAccountKind.available⟩,
                  JournalLineDirection.credit, amount, currency⟩] ref now).id,
           journal_entry_id := (newJournalEntry (get_or_create_ledger_accounts
              (get_or_create_ledger_accounts s from_wallet_id) to_wallet_id)
              JournalEntryType.transfer api_key.id ik
              [⟨⟨from_wallet_id, LedgerAccountKind.available⟩,
                  JournalLineDirection.debit, amount, currency⟩,
               ⟨⟨to_wallet_id, LedgerAccountKind.available⟩,
                  JournalLineDirection.credit, amount, currency⟩] ref now).id,
           from_wallet_id := from_wallet_id, to_wallet_id := to_wallet_id,
           amount := amount, currency := currency, reference_id := ref,
           created_at := (newJournalEntry (get_or_create_ledger_accounts
              (get_or_create_ledger_accounts s from_wallet_id) to_wallet_id)
              JournalEntryType.transfer api_key.id ik
              [⟨⟨from_wallet_id, LedgerAccountKind.available⟩,
                  JournalLineDirection.debit, amount, currency⟩,
               ⟨⟨to_wallet_id, LedgerAccountKind.available⟩,
                  JournalLineDirection.credit, amount, currency⟩] ref now).created_at },
         { (get_or_create_ledger_accounts
             (get_or_create_ledger_accounts s from_wallet_id) to_wallet_id) with
           entries := newJournalEntry (get_or_create_ledger_accounts
               (get_or_create_ledger_accounts s from_wallet_id) to_wallet_id)
               JournalEntryType.transfer api_key.id ik
               [⟨⟨from_wallet_id, LedgerAccountKind.available⟩,
                   JournalLineDirection.debit, amount, currency⟩,
                ⟨⟨to_wallet_id, LedgerAccountKind.available⟩,
                   JournalLineDirection.credit, amount, currency⟩] ref now ::
             (get_or_create_ledger_accounts
               (get_or_create_ledger_accounts s from_wallet_id) to_wallet_id).entries,
           next_id := (get_or_create_ledger_accounts
             (get_or_create_ledger_accounts s from_wallet_id) to_wallet_id).next_id + 1 }) := by
      simp only [create_transfer, hfresh, hres, hfw, htw, hfa, hfc, htc, hlim, hcj,
        not_le.mpr hpos, hne, ne_eq, not_true_eq_false, not_false_eq_true,
        ite_false, ite_true, if_false, if_true, hbal, not_lt.mpr hsuf]
    refine ⟨_, _, hrunEq, ?_, ?_, ?_, ?_, ?_, ?_⟩
    · refine ⟨newJournalEntry (get_or_create_ledger_accounts
          (get_or_create_ledger_accounts s from_wallet_id) to_wallet_id)
          JournalEntryType.transfer api_key.id ik
          [⟨⟨from_wallet_id, LedgerAccountKind.available⟩,
              JournalLineDirection.debit, amount, currency⟩,
           ⟨⟨to_wallet_id, LedgerAccountKind.available⟩,
              JournalLineDirection.credit, amount, currency⟩] ref now, ?_, rfl, rfl, rfl⟩
      simp only [hent]
    · simp only [get_or_create_holds]
    · simp only [get_or_create_captures]
    · simp only [get_or_create_refunds]
    · exact (transfer_entry_balance_effects s _ _ from_wallet_id to_wallet_id amount
        currency (by simp only [hent]; rfl) rfl rfl hne).1
    · exact (transfer_entry_balance_effects s _ _ from_wallet_id to_wallet_id amount
        currency (by simp only [hent]; rfl) rfl rfl hne).2
  · intro hlt
    simp only [create_transfer, hfresh, hres, hfw, htw, hfa, hfc, htc, hlim,
      not_le.mpr hpos, hne, ne_eq, not_true_eq_false, not_false_eq_true,
      ite_false, ite_true, if_false, if_true, hbal, hlt]

theorem pair_entry_balance_effects (s s2 : LedgerState) (e : JournalEntry)
    (a1 a2 : AccountRef) (amount : Int) (currency : String)
    (hcons : s2.entries = e :: s.entries)
    (hlines : e.lines = [⟨a1, JournalLineDirection.debit, amount, currency⟩,
                         ⟨a2, JournalLineDirection.credit, amount, currency⟩])
    (hst : e.status = JournalEntryStatus.posted)
    (hne12 : a1 ≠ a2) :
    get_ledger_account_balance s2 a1 = get_ledger_account_balance s a1 - amount ∧
    get_ledger_account_balance s2 a2 = get_ledger_account_balance s a2 + amount := by
  obtain ⟨hc1, hd1⟩ := entryLineSum_pair a1 a1 a2 amount amount currency currency e hlines
  obtain ⟨hc2, hd2⟩ := entryLineSum_pair a2 a1 a2 amount amount currency currency e hlines
  constructor
  · rw [balance_entries_cons e _ hcons hst, hc1, hd1, if_neg (Ne.symm hne12), if_pos rfl]
    ring
  · rw [balance_entries_cons e _ hcons hst, hc2, hd2, if_pos rfl, if_neg hne12]
    ring

theorem available_ne_held (w : Nat) :
    (⟨w, LedgerAccountKind.available⟩ : AccountRef) ≠ ⟨w, LedgerAccountKind.held⟩ := by
  intro h
  have hk := congrArg AccountRef.kind h
  simp at hk

/-- A deposit entry funding wallet 1 with 1000 USD from the system
wallet 0, used by concrete instantiations. -/
def exSeedEntry : JournalEntry :=
  { id := 5, type := JournalEntryType.deposit_external, status := JournalEntryStatus.posted,
    idempotency_key := "seed", reference_id := none, created_by_api_key_id := 99,
    created_at := 0,
    lines := [⟨⟨0, LedgerAccountKind.available⟩, JournalLineDirection.debit, 1000, "USD"⟩,
              ⟨⟨1, LedgerAccountKind.available⟩, JournalLineDirection.credit, 1000, "USD"⟩] }

/-- Three active USD wallets (system 0, payer 1, merchant 2) and the
seed entry that funds the payer with 1000. -/
def exBaseState : LedgerState :=
  { wallets := [⟨0, WalletStatus.active, "USD", none⟩,
                ⟨1, WalletStatus.active, "USD", some "@alice"⟩,
                ⟨2, WalletStatus.active, "USD", some "@m"⟩],
    accounts := [⟨0, LedgerAccountKind.available⟩, ⟨0, LedgerAccountKind.held⟩,
                 ⟨1, LedgerAccountKind.available⟩, ⟨1, LedgerAccountKind.held⟩],
    entries := [exSeedEntry], holds := [], captures := [], refunds := [],
    external_identities := [], next_id := 10 }

/-- The payer wallet key, no limits configured. -/
def exAliceKey : APIKey :=
  { id := 7, wallet_id := 1, scopes := ["transfer:create"], per_tx_max := none,
    daily_max := none, allowed_counterparties := none }

/-- C1 witness: wallet 1 (balance 1000) transfers 50 USD to wallet 2;
the posting and both balance changes follow from the theorem at this
concrete input. -/
theorem transfer_posts_witness :
    ∃ r s2, create_transfer exBaseState exAliceKey 1 (RecipientAddress.wallet_id 2) 50 "USD"
        "k1" none 100 = Except.ok (r, s2) ∧
      (∃ entry, s2.entries = entry :: exBaseState.entries ∧
        entry.type = JournalEntryType.transfer ∧
        entry.status = JournalEntryStatus.posted ∧
        entry.lines =
          [⟨⟨1, LedgerAccountKind.available⟩, JournalLineDirection.debit, 50, "USD"⟩,
           ⟨⟨2, LedgerAccountKind.available⟩, JournalLineDirection.credit, 50, "USD"⟩]) ∧
      s2.holds = exBaseState.holds ∧ s2.captures = exBaseState.captures ∧
      s2.refunds = exBaseState.refunds ∧
      available_balance s2 1 = available_balance exBaseState 1 - 50 ∧
      available_balance s2 2 = available_balance exBaseState 2 + 50 :=
  (transfer_posts_balanced_pair_or_insufficient_funds exBaseState exAliceKey 1
      (RecipientAddress.wallet_id 2) 50 "USD" "k1" none 100 2 (some "@m")
      ⟨1, WalletStatus.active, "USD", some "@alice"⟩
      ⟨2, WalletStatus.active, "USD", some "@m"⟩
      (by decide) (by rfl) (by rfl) (by decide) (by rfl) (by rfl) (by rfl) (by rfl)
      (by rfl) (by rfl) (by rfl) (by rfl)).1 (by decide)

/-! Claim C6: expired active holds. -/

/-- C6: on an active hold with remaining funds whose expires_at lies in
the past, capture_hold fails with hold_expired (no state accompanies the
failure), while release_hold on the very same hold succeeds. -/
theorem expired_hold_capture_fails_release_succeeds
    (s : LedgerState) (api_key : APIKey) (hold_id : Nat) (hold : Hold)
    (to_recipient : RecipientAddress) (camount : Option Int) (ik1 ik2 : String) (now : Int)
    (hcapfresh : s.captures.find? (fun c => c.idempotency_key == ik1) = none)
    (hrelfresh : check_idempotency s ik2 api_key.id = none)
    (hfh : findHold s hold_id = some hold)
    (hown : hold.wallet_id = api_key.wallet_id)
    (hact : hold.status = HoldStatus.active)
    (hrem : 0 < hold.remaining_amount)
    (hexp : hold.expires_at < now) :
    capture_hold s api_key hold_id to_recipient camount ik1 now =
      Except.error ErrorCode.hold_expired ∧
    ∃ r s2, release_hold s api_key hold_id none ik2 now = Except.ok (r, s2) := by
  have hexpb : hold.is_expired now = true := by
    simp only [Hold.is_expired, decide_eq_true_eq]
    exact hexp
  have hcc : hold.can_capture now = false := by
    simp [Hold.can_capture, hexpb]
  have hcr : hold.can_release = true := by
    simp only [Hold.can_release, hact, Bool.and_eq_true, beq_self_eq_true, true_and,
      decide_eq_true_eq]
    exact hrem
  constructor
  · simp [capture_hold, hcapfresh, hfh, hown, hcc, hexpb]
  · have hfre1 : check_idempotency (get_or_create_ledger_accounts s hold.wallet_id) ik2
        api_key.id = none := by
      rw [check_idempotency_congr ik2 api_key.id (get_or_create_entries s hold.wallet_id)]
      exact hrelfresh
    have hbalanced : total_debits
        [⟨⟨hold.wallet_id, LedgerAccountKind.held⟩,
            JournalLineDirection.debit, hold.remaining_amount, hold.currency⟩,
         ⟨⟨hold.wallet_id, LedgerAccountKind.available⟩,
            JournalLineDirection.credit, hold.remaining_amount, hold.currency⟩] =
        total_credits
        [⟨⟨hold.wallet_id, LedgerAccountKind.held⟩,
            JournalLineDirection.debit, hold.remaining_amount, hold.currency⟩,
         ⟨⟨hold.wallet_id, LedgerAccountKind.available⟩,
            JournalLineDirection.credit, hold.remaining_amount, hold.currency⟩] := by
      simp [total_debits, total_credits]
    have hcj : create_journal_entry (get_or_create_ledger_accounts s hold.wallet_id)
        JournalEntryType.release api_key.id ik2
        [⟨⟨hold.wallet_id, LedgerAccountKind.held⟩,
            JournalLineDirection.debit, hold.remaining_amount, hold.currency⟩,
         ⟨⟨hold.wallet_id, LedgerAccountKind.available⟩,
            JournalLineDirection.credit, hold.remaining_amount, hold.currency⟩] none now =
        Except.ok
        (newJournalEntry (get_or_create_ledger_accounts s hold.wallet_id)
          JournalEntryType.release api_key.id ik2
          [⟨⟨hold.wallet_id, LedgerAccountKind.held⟩,
              JournalLineDirection.debit, hold.remaining_amount, hold.currency⟩,
           ⟨⟨hold.wallet_id, LedgerAccountKind.available⟩,
              JournalLineDirection.credit, hold.remaining_amount, hold.currency⟩] none now,
         { (get_or_create_ledger_accounts s hold.wallet_id) with
           entries := newJournalEntry (get_or_create_ledger_accounts s hold.wallet_id)
               JournalEntryType.release api_key.id ik2
               [⟨⟨hold.wallet_id, LedgerAccountKind.held⟩,
                   JournalLineDirection.debit, hold.remaining_amount, hold.currency⟩,
                ⟨⟨hold.wallet_id, LedgerAccountKind.available⟩,
                   JournalLineDirection.credit, hold.remaining_amount, hold.currency⟩]
               none now ::
             (get_or_create_ledger_accounts s hold.wallet_id).entries,
           next_id := (get_or_create_ledger_accounts s hold.wallet_id).next_id + 1 }) := by
      unfold create_journal_entry newJournalEntry
      rw [if_neg (not_ne_iff.mpr hbalanced), hfre1]
      rfl
    simp only [release_hold, release_hold_after_probe, hrelfresh, hfh,
      not_ne_iff.mpr hown, hcr, hcj,
      ne_eq, not_true_eq_false, Bool.not_true, Bool.false_eq_true, if_false, ite_false,
      Option.getD, not_le.mpr hrem, lt_irrefl]
    exact ⟨_, _, rfl⟩

/-- The journal entry of the concrete hold (debit available, credit
held, 100 USD on wallet 1). -/
def exHoldPostEntry : JournalEntry :=
  { id := 10, type := JournalEntryType.hold, status := JournalEntryStatus.posted,
    idempotency_key := "h1", reference_id := none, created_by_api_key_id := 7,
    created_at := 100,
    lines := [⟨⟨1, LedgerAccountKind.available⟩, JournalLineDirection.debit, 100, "USD"⟩,
              ⟨⟨1, LedgerAccountKind.held⟩, JournalLineDirection.credit, 100, "USD"⟩] }

/-- An active hold of 100 on wallet 1 that expired at time 3700. -/
def exHold : Hold :=
  { id := 11, wallet_id := 1, amount := 100, remaining_amount := 100, currency := "USD",
    status := HoldStatus.active, expires_at := 3700, created_by_api_key_id := 7,
    idempotency_key := "h1" }

/-- exBaseState after that hold was created. -/
def exHoldState : LedgerState :=
  { exBaseState with
    entries := exHoldPostEntry :: exBaseState.entries,
    holds := [exHold],
    next_id := 12 }

/-- C6 witness: far past the expiry instant, capture of the concrete
hold fails with hold_expired while its release succeeds. -/
theorem expired_hold_witness :
    capture_hold exHoldState exAliceKey 11 (RecipientAddress.wallet_id 2) none "c1" 999999 =
      Except.error ErrorCode.hold_expired ∧
    ∃ r s2, release_hold exHoldState exAliceKey 11 none "r1" 999999 = Except.ok (r, s2) :=
  expired_hold_capture_fails_release_succeeds exHoldState exAliceKey 11 exHold
    (RecipientAddress.wallet_id 2) none "c1" "r1" 999999
    (by rfl) (by rfl) (by rfl) (by rfl) (by rfl) (by decide) (by decide)

/-! Claim C5: hold then full release round-trip. -/

theorem check_idempotency_cons {s1 s0 : LedgerState} {e : JournalEntry} (ik : String)
    (kid : Nat) (hs : s1.entries = e :: s0.entries)
    (hne : (e.idempotency_key == ik && e.created_by_api_key_id == kid) = false)
    (h0 : check_idempotency s0 ik kid = none) :
    check_idempotency s1 ik kid = none := by
  unfold check_idempotency at h0 ⊢
  rw [hs, List.find?_cons_of_neg _ (by simp only [hne]; exact Bool.false_ne_true), h0]

theorem findHold_cons_self {s1 : LedgerState} {h0 : Hold} {rest : List Hold}
    (hs : s1.holds = h0 :: rest) (hid : Nat) (hideq : h0.id = hid) :
    findHold s1 hid = some h0 := by
  unfold findHold
  rw [hs, List.find?_cons_of_pos _ (by simp [hideq])]

theorem hold_release_entries_balance (s s2 : LedgerState) (e1 e2 : JournalEntry)
    (w : Nat) (x : Int) (c1 c2 : String)
    (hcons : s2.entries = e2 :: e1 :: s.entries)
    (hl1 : e1.lines =
      [⟨⟨w, LedgerAccountKind.available⟩, JournalLineDirection.debit, x, c1⟩,
       ⟨⟨w, LedgerAccountKind.held⟩, JournalLineDirection.credit, x, c1⟩])
    (hst1 : e1.status = JournalEntryStatus.posted)
    (hl2 : e2.lines =
      [⟨⟨w, LedgerAccountKind.held⟩, JournalLineDirection.debit, x, c2⟩,
       ⟨⟨w, LedgerAccountKind.available⟩, JournalLineDirection.credit, x, c2⟩])
    (hst2 : e2.status = JournalEntryStatus.posted) :
    available_balance s2 w = available_balance s w ∧
    held_balance s2 w = held_balance s w := by
  have step1 := pair_entry_balance_effects s { s with entries := e1 :: s.entries } e1
    ⟨w, LedgerAccountKind.available⟩ ⟨w, LedgerAccountKind.held⟩ x c1 rfl hl1 hst1
    (available_ne_held w)
  have step2 := pair_entry_balance_effects { s with entries := e1 :: s.entries } s2 e2
    ⟨w, LedgerAccountKind.held⟩ ⟨w, LedgerAccountKind.available⟩ x c2
    (by rw [hcons]) hl2 hst2 (Ne.symm (available_ne_held w))
  constructor
  · show get_ledger_account_balance s2 ⟨w, LedgerAccountKind.available⟩ =
      get_ledger_account_balance s ⟨w, LedgerAccountKind.available⟩
    rw [step2.2, step1.1]
    ring
  · show get_ledger_account_balance s2 ⟨w, LedgerAccountKind.held⟩ =
      get_ledger_account_balance s ⟨w, LedgerAccountKind.held⟩
    rw [step2.1, step1.2]
    ring

/-- Proof abbreviation: the journal entry create_hold posts. -/
def holdPostEntry (s : LedgerState) (api_key : APIKey) (wallet_id : Nat) (amount : Int)
    (currency ik1 : String) (now : Int) : JournalEntry :=
  newJournalEntry (get_or_create_ledger_accounts s wallet_id) JournalEntryType.hold
    api_key.id ik1
    [⟨⟨wallet_id, LedgerAccountKind.available⟩, JournalLineDirection.debit, amount, currency⟩,
     ⟨⟨wallet_id, LedgerAccountKind.held⟩, JournalLineDirection.credit, amount, currency⟩]
    none now

/-- Proof abbreviation: the hold row create_hold persists. -/
def newHoldRow (s : LedgerState) (api_key : APIKey) (wallet_id : Nat) (amount : Int)
    (currency ik1 : String) (exp now : Int) : Hold :=
  { id := (get_or_create_ledger_accounts s wallet_id).next_id + 1, wallet_id := wallet_id,
    amount := amount, remaining_amount := amount, currency := currency,
    status := HoldStatus.active, expires_at := now + exp,
    created_by_api_key_id := api_key.id, idempotency_key := ik1 }

/-- Proof abbreviation: the state create_hold leaves behind on success. -/
def holdPostState (s : LedgerState) (api_key : APIKey) (wallet_id : Nat) (amount : Int)
    (currency ik1 : String) (exp now : Int) : LedgerState :=
  { (get_or_create_ledger_accounts s wallet_id) with
    entries := holdPostEntry s api_key wallet_id amount currency ik1 now ::
      (get_or_create_ledger_accounts s wallet_id).entries,
    holds := newHoldRow s api_key wallet_id amount currency ik1 exp now ::
      (get_or_create_ledger_accounts s wallet_id).holds,
    next_id := (get_or_create_ledger_accounts s wallet_id).next_id + 1 + 1 }

/-- C5: creating a hold of amount X on a wallet (fresh keys on both the
holds and the journal tables, active wallet, matching currency, no
limits configured, sufficient available balance), then releasing that
hold in full, restores the wallet's available and held balances exactly
to their starting values. -/
theorem hold_then_full_release_restores_balances
    (s : LedgerState) (api_key : APIKey) (wallet_id : Nat) (amount : Int)
    (currency ik1 ik2 : String) (exp now now2 : Int) (wlt : Wallet)
    (hpos : 0 < amount)
    (hnr : s.holds.find? (fun h =>
      h.idempotency_key == ik1 && h.created_by_api_key_id == api_key.id) = none)
    (hfr1 : check_idempotency s ik1 api_key.id = none)
    (hw : findWallet s wallet_id = some wlt)
    (hwa : wlt.status = WalletStatus.active)
    (hwc : wlt.currency = currency)
    (hpt : api_key.per_tx_max = none)
    (hdm : api_key.daily_max = none)
    (hcp : api_key.allowed_counterparties = none)
    (hsuf : amount ≤ available_balance s wallet_id)
    (hown : api_key.wallet_id = wallet_id)
    (hfr2 : check_idempotency s ik2 api_key.id = none)
    (hikne : ik1 ≠ ik2) :
    ∃ r1 s1, create_hold s api_key wallet_id amount currency ik1 exp now =
        Except.ok (r1, s1) ∧
      ∃ r2 s2, release_hold s1 api_key r1.id none ik2 now2 = Except.ok (r2, s2) ∧
        available_balance s2 wallet_id = available_balance s wallet_id ∧
        held_balance s2 wallet_id = held_balance s wallet_id := by
  have hent : (get_or_create_ledger_accounts s wallet_id).entries = s.entries :=
    get_or_create_entries s wallet_id
  have hlim : enforce_limits s api_key amount now none none = Except.ok () := by
    simp only [enforce_limits, check_transaction_limit, check_daily_limit,
      check_counterparty_allowlist, hpt, hdm, hcp]
  have hbal : get_ledger_account_balance (get_or_create_ledger_accounts s wallet_id)
      ⟨wallet_id, LedgerAccountKind.available⟩ = available_balance s wallet_id :=
    balance_congr _ hent
  have hfresh1 : check_idempotency (get_or_create_ledger_accounts s wallet_id) ik1
      api_key.id = none := by
    rw [check_idempotency_congr ik1 api_key.id hent]
    exact hfr1
  have hbalanced1 : total_debits
      [⟨⟨wallet_id, LedgerAccountKind.available⟩, JournalLineDirection.debit, amount, currency⟩,
       ⟨⟨wallet_id, LedgerAccountKind.held⟩, JournalLineDirection.credit, amount, currency⟩] =
      total_credits
      [⟨⟨wallet_id, LedgerAccountKind.available⟩, JournalLineDirection.debit, amount, currency⟩,
       ⟨⟨wallet_id, LedgerAccountKind.held⟩, JournalLineDirection.credit, amount, currency⟩] := by
    simp [total_debits, total_credits]
  have hcj1 : create_journal_entry (get_or_create_ledger_accounts s wallet_id)
      JournalEntryType.hold api_key.id ik1
      [⟨⟨wallet_id, LedgerAccountKind.available⟩, JournalLineDirection.debit, amount, currency⟩,
       ⟨⟨wallet_id, LedgerAccountKind.held⟩, JournalLineDirection.credit, amount, currency⟩]
      none now = Except.ok
      (holdPostEntry s api_key wallet_id amount currency ik1 now,
       { (get_or_create_ledger_accounts s wallet_id) with
         entries := holdPostEntry s api_key wallet_id amount currency ik1 now ::
           (get_or_create_ledger_accounts s wallet_id).entries,
         next_id := (get_or_create_ledger_accounts s wallet_id).next_id + 1 }) := by
    unfold create_journal_entry holdPostEntry newJournalEntry
    rw [if_neg (not_ne_iff.mpr hbalanced1), hfresh1]
    rfl
  have hrun1 : create_hold s api_key wallet_id amount currency ik1 exp now = Except.ok
      (holdResponseOf (newHoldRow s api_key wallet_id amount currency ik1 exp now),
       holdPostState s api_key wallet_id amount currency ik1 exp now) := by
    simp only [create_hold, hnr, hw, hwa, hwc, hlim, hcj1, hbal,
      not_le.mpr hpos, ne_eq, not_true_eq_false, not_false_eq_true,
      ite_false, ite_true, if_false, if_true, not_lt.mpr hsuf,
      holdPostState, newHoldRow, holdPostEntry]
  refine ⟨_, _, hrun1, ?_⟩
  have hfr2s : check_idempotency (get_or_create_ledger_accounts s wallet_id) ik2
      api_key.id = none := by
    rw [check_idempotency_congr ik2 api_key.id hent]
    exact hfr2
  have hfr2p : check_idempotency
      (holdPostState s api_key wallet_id amount currency ik1 exp now) ik2 api_key.id =
      none :=
    check_idempotency_cons ik2 api_key.id rfl
      (by simp [holdPostEntry, newJournalEntry, hikne]) hfr2s
  have hfind : findHold (holdPostState s api_key wallet_id amount currency ik1 exp now)
      ((get_or_create_ledger_accounts s wallet_id).next_id + 1) =
      some { id := (get_or_create_ledger_accounts s wallet_id).next_id + 1,
             wallet_id := wallet_id, amount := amount, remaining_amount := amount,
             currency := currency, status := HoldStatus.active, expires_at := now + exp,
             created_by_api_key_id := api_key.id, idempotency_key := ik1 } :=
    findHold_cons_self rfl _ rfl
  have hcanrel : Hold.can_release
      { id := (get_or_create_ledger_accounts s wallet_id).next_id + 1,
        wallet_id := wallet_id, amount := amount, remaining_amount := amount,
        currency := currency, status := HoldStatus.active, expires_at := now + exp,
        created_by_api_key_id := api_key.id, idempotency_key := ik1 } = true := by
    simp only [Hold.can_release, Bool.and_eq_true, beq_iff_eq, decide_eq_true_eq]
    exact ⟨trivial, hpos⟩
  have hbalanced2 : total_debits
      [⟨⟨wallet_id, LedgerAccountKind.held⟩, JournalLineDirection.debit, amount, currency⟩,
       ⟨⟨wallet_id, LedgerAccountKind.available⟩, JournalLineDirection.credit, amount, currency⟩] =
      total_credits
      [⟨⟨wallet_id, LedgerAccountKind.held⟩, JournalLineDirection.debit, amount, currency⟩,
       ⟨⟨wallet_id, LedgerAccountKind.available⟩, JournalLineDirection.credit, amount, currency⟩] := by
    simp [total_debits, total_credits]
  have hfr2cj : check_idempotency (get_or_create_ledger_accounts
      (holdPostState s api_key wallet_id amount currency ik1 exp now) wallet_id) ik2
      api_key.id = none :=
    (check_idempotency_congr ik2 api_key.id (get_or_create_entries _ wallet_id)).trans hfr2p
  have hcj2 : create_journal_entry (get_or_create_ledger_accounts
      (holdPostState s api_key wallet_id amount currency ik1 exp now) wallet_id)
      JournalEntryType.release api_key.id ik2
      [⟨⟨wallet_id, LedgerAccountKind.held⟩, JournalLineDirection.debit, amount, currency⟩,
       ⟨⟨wallet_id, LedgerAccountKind.available⟩, JournalLineDirection.credit, amount, currency⟩]
      none now2 = Except.ok
      ({ id := (get_or_create_ledger_accounts
           (holdPostState s api_key wallet_id amount currency ik1 exp now) wallet_id).next_id,
         type := JournalEntryType.release, status := JournalEntryStatus.posted,
         idempotency_key := ik2, reference_id := none,
         created_by_api_key_id := api_key.id, created_at := now2,
         lines := [⟨⟨wallet_id, LedgerAccountKind.held⟩,
                      JournalLineDirection.debit, amount, currency⟩,
                   ⟨⟨wallet_id, LedgerAccountKind.available⟩,
                      JournalLineDirection.credit, amount, currency⟩] },
       { (get_or_create_ledger_accounts
           (holdPostState s api_key wallet_id amount currency ik1 exp now) wallet_id) with
         entries :=
           { id := (get_or_create_ledger_accounts
               (holdPostState s api_key wallet_id amount currency ik1 exp now)
               wallet_id).next_id,
             type := JournalEntryType.release, status := JournalEntryStatus.posted,
             idempotency_key := ik2, reference_id := none,
             created_by_api_key_id := api_key.id, created_at := now2,
             lines := [⟨⟨wallet_id, LedgerAccountKind.held⟩,
                          JournalLineDirection.debit, amount, currency⟩,
                       ⟨⟨wallet_id, LedgerAccountKind.available⟩,
                          JournalLineDirection.credit, amount, currency⟩] } ::
           (get_or_create_ledger_accounts
             (holdPostState s api_key wallet_id amount currency ik1 exp now)
             wallet_id).entries,
         next_id := (get_or_create_ledger_accounts
           (holdPostState s api_key wallet_id amount currency ik1 exp now)
           wallet_id).next_id + 1 }) := by
    simp only [create_journal_entry, not_ne_iff.mpr hbalanced2, hfr2cj,
      Option.isSome_none, Bool.false_eq_true, ite_false, if_false,
      not_false_eq_true, ite_true, if_true]
  simp only [release_hold, release_hold_after_probe, holdResponseOf, newHoldRow,
    hfr2p, hfind, hcanrel, hcj2, Option.getD_none, not_ne_iff.mpr hown.symm,
    not_le.mpr hpos, lt_self_iff_false, Bool.not_true, Bool.false_eq_true, ne_eq,
    not_true_eq_false, not_false_eq_true, ite_false, if_false, ite_true, if_true]
  refine ⟨_, _, rfl, ?_, ?_⟩
  · exact (hold_release_entries_balance s _ _ _ wallet_id amount currency currency
      (by simp only [get_or_create_entries, holdPostState, holdPostEntry] <;> rfl)
      rfl rfl rfl rfl).1
  · exact (hold_release_entries_balance s _ _ _ wallet_id amount currency currency
      (by simp only [get_or_create_entries, holdPostState, holdPostEntry] <;> rfl)
      rfl rfl rfl rfl).2

/-- C5 witness: wallet 1 (available 1000, held 0) takes a hold of 100
and releases it in full; both balances return to their starting
values. -/
theorem hold_then_full_release_witness :
    ∃ r1 s1, create_hold exBaseState exAliceKey 1 100 "USD" "h1" 3600 100 =
        Except.ok (r1, s1) ∧
      ∃ r2 s2, release_hold s1 exAliceKey r1.id none "r1" 200 = Except.ok (r2, s2) ∧
        available_balance s2 1 = available_balance exBaseState 1 ∧
        held_balance s2 1 = held_balance exBaseState 1 :=
  hold_then_full_release_restores_balances exBaseState exAliceKey 1 100 "USD" "h1" "r1"
    3600 100 200 ⟨1, WalletStatus.active, "USD", some "@alice"⟩
    (by decide) (by rfl) (by rfl) (by rfl) (by rfl) (by rfl) (by rfl) (by rfl) (by rfl)
    (by decide) (by rfl) (by rfl) (by decide)

/-! Claim C7: refunds. -/

theorem find?_map_id_preserving {α : Type} (l : List α) (p : α → Bool) (g : α → α)
    (hg : ∀ x, p (g x) = p x) : (l.map g).find? p = (l.find? p).map g := by
  induction l with
  | nil => rfl
  | cons a t ih =>
    by_cases hpa : p a = true
    · rw [List.map_cons, List.find?_cons_of_pos _ (by rw [hg]; exact hpa),
        List.find?_cons_of_pos _ hpa]
      rfl
    · rw [List.map_cons, List.find?_cons_of_neg _ (by rw [hg]; exact hpa),
        List.find?_cons_of_neg _ hpa, ih]

/-- Proof abbreviation: the journal entry create_refund posts. -/
def refundPostEntry (s : LedgerState) (api_key : APIKey) (cap : Capture) (hold : Hold)
    (ra : Int) (ik : String) (now : Int) : JournalEntry :=
  { id := (get_or_create_ledger_accounts (get_or_create_ledger_accounts s
       cap.to_wallet_id) hold.wallet_id).next_id,
    type := JournalEntryType.refund, status := JournalEntryStatus.posted,
    idempotency_key := ik, reference_id := some (toString cap.id),
    created_by_api_key_id := api_key.id, created_at := now,
    lines := [⟨⟨cap.to_wallet_id, LedgerAccountKind.available⟩,
                 JournalLineDirection.debit, ra, cap.currency⟩,
              ⟨⟨hold.wallet_id, LedgerAccountKind.available⟩,
                 JournalLineDirection.credit, ra, cap.currency⟩] }

/-- Proof abbreviation: the state right after create_refund's journal
posting (accounts ensured for both wallets, entry prepended). -/
def refundEntryState (s : LedgerState) (api_key : APIKey) (cap : Capture) (hold : Hold)
    (ra : Int) (ik : String) (now : Int) : LedgerState :=
  { get_or_create_ledger_accounts (get_or_create_ledger_accounts s cap.to_wallet_id)
      hold.wallet_id with
    entries := refundPostEntry s api_key cap hold ra ik now ::
      (get_or_create_ledger_accounts (get_or_create_ledger_accounts s cap.to_wallet_id)
        hold.wallet_id).entries,
    next_id := (get_or_create_ledger_accounts (get_or_create_ledger_accounts s
      cap.to_wallet_id) hold.wallet_id).next_id + 1 }

/-- Proof abbreviation: the refund row create_refund persists. -/
def newRefundRow (s : LedgerState) (api_key : APIKey) (cap : Capture) (hold : Hold)
    (ra : Int) (ik : String) (now : Int) : Refund :=
  { id := (refundEntryState s api_key cap hold ra ik now).next_id,
    capture_id := cap.id, amount := ra, currency := cap.currency,
    journal_entry_id := (refundPostEntry s api_key cap hold ra ik now).id,
    idempotency_key := ik }

/-- Proof abbreviation: the state create_refund leaves behind on
success. -/
def refundPostState (s : LedgerState) (api_key : APIKey) (cap : Capture) (hold : Hold)
    (ra : Int) (ik : String) (now : Int) : LedgerState :=
  { refundEntryState s api_key cap hold ra ik now with
    captures := (refundEntryState s api_key cap hold ra ik now).captures.map (fun c =>
      if c.id == cap.id then { c with refunded_amount := c.refunded_amount + ra }
      else c),
    refunds := newRefundRow s api_key cap hold ra ik now ::
      (refundEntryState s api_key cap hold ra ik now).refunds,
    next_id := (refundEntryState s api_key cap hold ra ik now).next_id + 1 }

/-- C7: with a fresh idempotency key, create_refund creates a refund
only for the capture's destination wallet key (any other caller gets
the 403 forbidden error); the amount defaults to the refundable amount
(capture.amount minus capture.refunded_amount), a non-positive amount
is invalid_amount, an amount beyond the refundable amount is
amount_exceeds_refundable, a merchant available balance below the
amount is insufficient_funds, and on success the posted refund entry
debits the merchant available account and credits the available
account of the wallet owning the hold behind the capture, while
capture.refunded_amount grows by exactly the refund amount. -/
theorem refund_merchant_checks_and_posting
    (s : LedgerState) (api_key : APIKey) (capture_id : Nat) (amount : Option Int)
    (ik : String) (now : Int) (cap : Capture) (hold : Hold) (mw : Wallet) (ra : Int)
    (hfresh : s.refunds.find? (fun r => r.idempotency_key == ik) = none)
    (hjfresh : check_idempotency s ik api_key.id = none)
    (hcap : findCapture s capture_id = some cap)
    (hra : ra = amount.getD cap.refundable_amount) :
    (cap.to_wallet_id ≠ api_key.wallet_id →
      create_refund s api_key capture_id amount ik now =
        Except.error ErrorCode.forbidden ∧
      errorHttpStatus ErrorCode.forbidden = 403) ∧
    (cap.to_wallet_id = api_key.wallet_id →
      (ra ≤ 0 →
        create_refund s api_key capture_id amount ik now =
          Except.error ErrorCode.invalid_amount) ∧
      (0 < ra → cap.refundable_amount < ra →
        create_refund s api_key capture_id amount ik now =
          Except.error ErrorCode.amount_exceeds_refundable) ∧
      (0 < ra → ra ≤ cap.refundable_amount →
        findHold s cap.hold_id = some hold →
        findWallet s cap.to_wallet_id = some mw → mw.status = WalletStatus.active →
        (available_balance s cap.to_wallet_id < ra →
          create_refund s api_key capture_id amount ik now =
            Except.error ErrorCode.insufficient_funds) ∧
        (ra ≤ available_balance s cap.to_wallet_id →
          ∃ r s2, create_refund s api_key capture_id amount ik now =
              Except.ok (r, s2) ∧
            (∃ entry, s2.entries = entry :: s.entries ∧
              entry.type = JournalEntryType.refund ∧
              entry.status = JournalEntryStatus.posted ∧
              entry.lines =
                [⟨⟨cap.to_wallet_id, LedgerAccountKind.available⟩,
                    JournalLineDirection.debit, ra, cap.currency⟩,
                 ⟨⟨hold.wallet_id, LedgerAccountKind.available⟩,
                    JournalLineDirection.credit, ra, cap.currency⟩]) ∧
            findCapture s2 capture_id =
              some { cap with refunded_amount := cap.refunded_amount + ra } ∧
            (hold.wallet_id ≠ cap.to_wallet_id →
              available_balance s2 cap.to_wallet_id =
                available_balance s cap.to_wallet_id - ra ∧
              available_balance s2 hold.wallet_id =
                available_balance s hold.wallet_id + ra)))) := by
  constructor
  · intro hnotm
    refine ⟨?_, rfl⟩
    simp only [create_refund, hfresh, hcap, hnotm, ne_eq, not_false_eq_true,
      ite_true, if_true]
  · intro hm
    refine ⟨?_, ?_, ?_⟩
    · intro hle
      simp only [create_refund, hfresh, hcap, ← hra, not_ne_iff.mpr hm, hle, ne_eq,
        not_true_eq_false, ite_false, if_false, ite_true, if_true]
    · intro h0 hgt
      simp only [create_refund, hfresh, hcap, ← hra, not_ne_iff.mpr hm,
        not_le.mpr h0, hgt, ne_eq, not_true_eq_false, not_false_eq_true,
        ite_false, if_false, ite_true, if_true]
    · intro h0 hle hhold hmw hmwa
      have hent2 : (get_or_create_ledger_accounts (get_or_create_ledger_accounts s
          cap.to_wallet_id) hold.wallet_id).entries = s.entries := by
        rw [get_or_create_entries, get_or_create_entries]
      have hbalmw : get_ledger_account_balance (get_or_create_ledger_accounts
          (get_or_create_ledger_accounts s cap.to_wallet_id) hold.wallet_id)
          ⟨cap.to_wallet_id, LedgerAccountKind.available⟩ =
          available_balance s cap.to_wallet_id :=
        balance_congr _ hent2
      constructor
      · intro hlt
        simp only [create_refund, hfresh, hcap, ← hra, not_ne_iff.mpr hm,
          not_le.mpr h0, not_lt.mpr hle, hhold, hmw, hmwa, hbalmw, hlt, ne_eq,
          not_true_eq_false, not_false_eq_true, ite_false, if_false, ite_true, if_true]
      · intro hsuf
        have hjfresh2 : check_idempotency (get_or_create_ledger_accounts
            (get_or_create_ledger_accounts s cap.to_wallet_id) hold.wallet_id) ik
            api_key.id = none :=
          (check_idempotency_congr ik api_key.id hent2).trans hjfresh
        have hbalanced : total_debits
            [⟨⟨cap.to_wallet_id, LedgerAccountKind.available⟩,
                JournalLineDirection.debit, ra, cap.currency⟩,
             ⟨⟨hold.wallet_id, LedgerAccountKind.available⟩,
                JournalLineDirection.credit, ra, cap.currency⟩] = total_credits
            [⟨⟨cap.to_wallet_id, LedgerAccountKind.available⟩,
                JournalLineDirection.debit, ra, cap.currency⟩,
             ⟨⟨hold.wallet_id, LedgerAccountKind.available⟩,
                JournalLineDirection.credit, ra, cap.currency⟩] := by
          simp [total_debits, total_credits]
        have hcjr : create_journal_entry (get_or_create_ledger_accounts
            (get_or_create_ledger_accounts s cap.to_wallet_id) hold.wallet_id)
            JournalEntryType.refund api_key.id ik
            [⟨⟨cap.to_wallet_id, LedgerAccountKind.available⟩,
                JournalLineDirection.debit, ra, cap.currency⟩,
             ⟨⟨hold.wallet_id, LedgerAccountKind.available⟩,
                JournalLineDirection.credit, ra, cap.currency⟩]
            (some (toString cap.id)) now = Except.ok
            (refundPostEntry s api_key cap hold ra ik now,
             refundEntryState s api_key cap hold ra ik now) := by
          unfold create_journal_entry refundEntryState refundPostEntry
          rw [if_neg (not_ne_iff.mpr hbalanced), hjfresh2]
          rfl
        have hrun : create_refund s api_key capture_id amount ik now = Except.ok
            (refundResponseOf (newRefundRow s api_key cap hold ra ik now),
             refundPostState s api_key cap hold ra ik now) := by
          simp only [create_refund, hfresh, hcap, ← hra, not_ne_iff.mpr hm,
            not_le.mpr h0, not_lt.mpr hle, hhold, hmw, hmwa, hbalmw,
            not_lt.mpr hsuf, hcjr, ne_eq, not_true_eq_false, not_false_eq_true,
            ite_false, if_false, ite_true, if_true, refundPostState, newRefundRow,
            refundEntryState, refundPostEntry]
        have hentP : (refundPostState s api_key cap hold ra ik now).entries =
            refundPostEntry s api_key cap hold ra ik now :: s.entries := by
          simp only [refundPostState, refundEntryState, hent2]
        have hlinesP : (refundPostEntry s api_key cap hold ra ik now).lines =
            [⟨⟨cap.to_wallet_id, LedgerAccountKind.available⟩,
                JournalLineDirection.debit, ra, cap.currency⟩,
             ⟨⟨hold.wallet_id, LedgerAccountKind.available⟩,
                JournalLineDirection.credit, ra, cap.currency⟩] := rfl
        refine ⟨_, _, hrun, ⟨refundPostEntry s api_key cap hold ra ik now,
          hentP, rfl, rfl, hlinesP⟩, ?_, ?_⟩
        · have hcaps : (refundPostState s api_key cap hold ra ik now).captures =
              List.map (fun c =>
                if c.id == cap.id then
                  { c with refunded_amount := c.refunded_amount + ra }
                else c)
              (get_or_create_ledger_accounts (get_or_create_ledger_accounts s
                cap.to_wallet_id) hold.wallet_id).captures := by
            simp only [refundPostState, refundEntryState]
          unfold findCapture
          rw [hcaps, find?_map_id_preserving _ _ _ ?hg]
          case hg =>
            intro x
            by_cases hx : (x.id == cap.id) = true
            · simp [hx]
            · simp [hx]
          rw [show (List.find? (fun c => c.id == capture_id)
              (get_or_create_ledger_accounts (get_or_create_ledger_accounts s
                cap.to_wallet_id) hold.wallet_id).captures) =
              findCapture s capture_id from by
              unfold findCapture
              rw [get_or_create_captures, get_or_create_captures], hcap]
          simp only [Option.map_some']
          rw [if_pos (beq_self_eq_true cap.id)]
        · intro hpwne
          exact transfer_entry_balance_effects s _ _ cap.to_wallet_id hold.wallet_id
            ra cap.currency hentP hlinesP rfl (Ne.symm hpwne)

/-- The posted capture entry that funded merchant wallet 2 with 70 out
of payer wallet 1's held account. -/
def exCaptureEntry : JournalEntry :=
  { id := 12, type := JournalEntryType.capture, status := JournalEntryStatus.posted,
    idempotency_key := "c1", reference_id := some "11", created_by_api_key_id := 7,
    created_at := 50,
    lines := [⟨⟨1, LedgerAccountKind.held⟩, JournalLineDirection.debit, 70, "USD"⟩,
              ⟨⟨2, LedgerAccountKind.available⟩, JournalLineDirection.credit, 70, "USD"⟩] }

/-- The fully captured hold behind that capture. -/
def exSettledHold : Hold :=
  { id := 11, wallet_id := 1, amount := 70, remaining_amount := 0, currency := "USD",
    status := HoldStatus.captured, expires_at := 3600, created_by_api_key_id := 7,
    idempotency_key := "h7" }

/-- The capture of 70 from payer 1 to merchant 2, nothing refunded yet. -/
def exCapture : Capture :=
  { id := 13, hold_id := 11, to_wallet_id := 2, amount := 70, currency := "USD",
    journal_entry_id := 12, idempotency_key := "c1", refunded_amount := 0 }

/-- The merchant wallet key. -/
def exMerchantKey : APIKey :=
  { id := 8, wallet_id := 2, scopes := ["refund:create"], per_tx_max := none,
    daily_max := none, allowed_counterparties := none }

/-- Payer 1 and merchant 2 with the settled capture above: the merchant
available balance is 70. -/
def exCaptureState : LedgerState :=
  { wallets := [⟨1, WalletStatus.active, "USD", some "@alice"⟩,
                ⟨2, WalletStatus.active, "USD", some "@m"⟩],
    accounts := [⟨1, LedgerAccountKind.available⟩, ⟨1, LedgerAccountKind.held⟩,
                 ⟨2, LedgerAccountKind.available⟩, ⟨2, LedgerAccountKind.held⟩],
    entries := [exCaptureEntry], holds := [exSettledHold], captures := [exCapture],
    refunds := [], external_identities := [], next_id := 20 }

/-- C7 witness: the merchant key refunds 50 of the 70 capture; the
posted refund entry debits merchant available, credits payer available,
and the capture's refunded amount becomes 50. -/
theorem refund_merchant_checks_witness :
    ∃ r s2, create_refund exCaptureState exMerchantKey 13 (some 50) "rf1" 100 =
        Except.ok (r, s2) ∧
      (∃ entry, s2.entries = entry :: exCaptureState.entries ∧
        entry.type = JournalEntryType.refund ∧
        entry.status = JournalEntryStatus.posted ∧
        entry.lines =
          [⟨⟨2, LedgerAccountKind.available⟩, JournalLineDirection.debit, 50, "USD"⟩,
           ⟨⟨1, LedgerAccountKind.available⟩, JournalLineDirection.credit, 50, "USD"⟩]) ∧
      findCapture s2 13 = some { exCapture with refunded_amount := 50 } ∧
      available_balance s2 2 = available_balance exCaptureState 2 - 50 ∧
      available_balance s2 1 = available_balance exCaptureState 1 + 50 := by
  have h := (refund_merchant_checks_and_posting exCaptureState exMerchantKey 13
    (some 50) "rf1" 100 exCapture exSettledHold
    ⟨2, WalletStatus.active, "USD", some "@m"⟩ 50
    (by rfl) (by rfl) (by rfl) (by rfl)).2 rfl
  have h2 := (h.2.2 (by decide) (by decide) (by rfl) (by rfl) (by rfl)).2 (by decide)
  obtain ⟨r, s2, hrun, hent, hcap2, hbal⟩ := h2
  exact ⟨r, s2, hrun, hent, hcap2, (hbal (by decide)).1, (hbal (by decide)).2⟩

/-! Claims C4 and C10: the hold lifecycle under arbitrary operation
sequences.  One mutating API call of the service is a WalletOp; a
failed call raises through the FastAPI layer and its transaction rolls
back, leaving the database unchanged. -/

/-- One mutating call against the service. -/
inductive WalletOp where
  | transferOp (api_key : APIKey) (from_wallet_id : Nat) (to_recipient : RecipientAddress)
      (amount : Int) (currency : String) (ik : String) (ref : Option String) (now : Int)
  | holdOp (api_key : APIKey) (wallet_id : Nat) (amount : Int) (currency : String)
      (ik : String) (expires_in_seconds : Int) (now : Int)
  | captureOp (api_key : APIKey) (hold_id : Nat) (to_recipient : RecipientAddress)
      (amount : Option Int) (ik : String) (now : Int)
  | releaseOp (api_key : APIKey) (hold_id : Nat) (amount : Option Int) (ik : String)
      (now : Int)
  | refundOp (api_key : APIKey) (capture_id : Nat) (amount : Option Int) (ik : String)
      (now : Int)

/-- Run one call; an error leaves the state unchanged (rollback). -/
def applyOp (s : LedgerState) (op : WalletOp) : LedgerState :=
  match op with
  | WalletOp.transferOp k f t a c ik ref now =>
    match create_transfer s k f t a c ik ref now with
    | Except.ok (_, s2) => s2
    | Except.error _ => s
  | WalletOp.holdOp k w a c ik e now =>
    match create_hold s k w a c ik e now with
    | Except.ok (_, s2) => s2
    | Except.error _ => s
  | WalletOp.captureOp k hid t a ik now =>
    match capture_hold s k hid t a ik now with
    | Except.ok (_, s2) => s2
    | Except.error _ => s
  | WalletOp.releaseOp k hid a ik now =>
    match release_hold s k hid a ik now with
    | Except.ok (_, s2) => s2
    | Except.error _ => s
  | WalletOp.refundOp k cid a ik now =>
    match create_refund s k cid a ik now with
    | Except.ok (_, s2) => s2
    | Except.error _ => s

/-- Run a sequence of calls. -/
def applyOps (s : LedgerState) (ops : List WalletOp) : LedgerState :=
  ops.foldl applyOp s

/-- Whether release_hold would answer this key from the journal instead
of running (a prior entry of the same (key, creator) with type release
exists). -/
def releaseReplays (s : LedgerState) (ik : String) (kid : Nat) : Bool :=
  match check_idempotency s ik kid with
  | some e => e.type == JournalEntryType.release
  | none => false

/-- The amount reported by a capture_hold call, 0 on error. -/
def captureResultAmount (s : LedgerState) (k : APIKey) (h : Nat) (t : RecipientAddress)
    (a : Option Int) (ik : String) (now : Int) : Int :=
  match capture_hold s k h t a ik now with
  | Except.ok (resp, _) => resp.amount
  | Except.error _ => 0

/-- The amount reported by a release_hold call, 0 on error. -/
def releaseResultAmount (s : LedgerState) (k : APIKey) (h : Nat) (a : Option Int)
    (ik : String) (now : Int) : Int :=
  match release_hold s k h a ik now with
  | Except.ok (resp, _) => resp.amount
  | Except.error _ => 0

/-- Amount this call actually captures from hold hid: the response
amount of a successful fresh-path capture_hold on that hold, 0 in every
other case (other op, other hold, idempotent replay, error). -/
def captureContribution (s : LedgerState) (hid : Nat) : WalletOp → Int
  | WalletOp.captureOp k h t a ik now =>
    if h = hid ∧ s.captures.find? (fun c => c.idempotency_key == ik) = none then
      captureResultAmount s k h t a ik now
    else 0
  | _ => 0

/-- Amount this call actually releases from hold hid: the response
amount of a successful fresh-path release_hold on that hold, 0 in every
other case. -/
def releaseContribution (s : LedgerState) (hid : Nat) : WalletOp → Int
  | WalletOp.releaseOp k h a ik now =>
    if h = hid ∧ releaseReplays s ik k.id = false then
      releaseResultAmount s k h a ik now
    else 0
  | _ => 0

/-- Run a sequence of calls while accumulating the amounts captured and
released from hold hid. -/
def runHoldTrace (s : LedgerState) (hid : Nat) (capAcc relAcc : Int) :
    List WalletOp → LedgerState × Int × Int
  | [] => (s, capAcc, relAcc)
  | op :: ops =>
    runHoldTrace (applyOp s op) hid (capAcc + captureContribution s hid op)
      (relAcc + releaseContribution s hid op) ops

/-- The lifecycle invariant of hold hid once capAcc has been captured
and relAcc released from it: the row exists (with an id below the id
sequence, so no later insert collides with it), its remaining amount
stays within [0, amount], its status has left active exactly when the
remaining amount has reached 0, and the captured plus released total
accounts exactly for the part of the original amount no longer
remaining. -/
def holdTraceInvariant (s : LedgerState) (hid : Nat) (capAcc relAcc : Int) : Prop :=
  hid < s.next_id ∧
  ∃ h, findHold s hid = some h ∧ h.id = hid ∧
    0 ≤ h.remaining_amount ∧ h.remaining_amount ≤ h.amount ∧
    (h.status ≠ HoldStatus.active ↔ h.remaining_amount = 0) ∧
    capAcc + relAcc = h.amount - h.remaining_amount

theorem create_transfer_ok_state {s s2 : LedgerState} {api_key : APIKey}
    {fid : Nat} {t : RecipientAddress} {amount : Int} {currency ik : String}
    {ref : Option String} {now : Int} {r : TransferResponse}
    (h : create_transfer s api_key fid t amount currency ik ref now = Except.ok (r, s2)) :
    s2.holds = s.holds ∧ s.next_id ≤ s2.next_id := by
  unfold create_transfer at h
  repeat' split at h
  any_goals simp only [reduceCtorEq] at h
  · simp only [Except.ok.injEq, Prod.mk.injEq] at h
    rw [← h.2]
    exact ⟨rfl, le_refl _⟩
  · split at h
    · simp only [reduceCtorEq] at h
    · split at h
      · simp only [reduceCtorEq] at h
      · rename_i entry s2e hcje
        obtain ⟨-, -, -, hs2e⟩ := create_journal_entry_ok hcje
        simp only [Except.ok.injEq, Prod.mk.injEq] at h
        rw [← h.2, hs2e]
        refine ⟨?_, ?_⟩
        · simp only [get_or_create_holds]
        · simp only [get_or_create_next_id]
          exact Nat.le_succ _

theorem create_refund_ok_state {s s2 : LedgerState} {api_key : APIKey}
    {cid : Nat} {amount : Option Int} {ik : String} {now : Int} {r : RefundResponse}
    (h : create_refund s api_key cid amount ik now = Except.ok (r, s2)) :
    s2.holds = s.holds ∧ s.next_id ≤ s2.next_id := by
  unfold create_refund at h
  cases hfr : List.find? (fun r0 => r0.idempotency_key == ik) s.refunds with
  | some ex =>
    simp only [hfr] at h
    simp only [Except.ok.injEq, Prod.mk.injEq] at h
    rw [← h.2]
    exact ⟨rfl, le_refl _⟩
  | none =>
    simp only [hfr] at h
    cases hc : findCapture s cid with
    | none => simp only [hc, reduceCtorEq] at h
    | some cap =>
      simp only [hc] at h
      by_cases hm : cap.to_wallet_id ≠ api_key.wallet_id
      · rw [if_pos hm] at h
        simp only [reduceCtorEq] at h
      · rw [if_neg hm] at h
        by_cases h0 : amount.getD cap.refundable_amount ≤ 0
        · rw [if_pos h0] at h
          simp only [reduceCtorEq] at h
        · rw [if_neg h0] at h
          by_cases hx : cap.refundable_amount < amount.getD cap.refundable_amount
          · rw [if_pos hx] at h
            simp only [reduceCtorEq] at h
          · rw [if_neg hx] at h
            cases hh : findHold s cap.hold_id with
            | none => simp only [hh, reduceCtorEq] at h
            | some hold =>
              simp only [hh] at h
              cases hw : findWallet s cap.to_wallet_id with
              | none => simp only [hw, reduceCtorEq] at h
              | some mw =>
                simp only [hw] at h
                by_cases hws : mw.status ≠ WalletStatus.active
                · rw [if_pos hws] at h
                  simp only [reduceCtorEq] at h
                · rw [if_neg hws] at h
                  by_cases hb : get_ledger_account_balance
                      (get_or_create_ledger_accounts
                        (get_or_create_ledger_accounts s cap.to_wallet_id)
                        hold.wallet_id)
                      ⟨cap.to_wallet_id, LedgerAccountKind.available⟩ <
                      amount.getD cap.refundable_amount
                  · rw [if_pos hb] at h
                    simp only [reduceCtorEq] at h
                  · rw [if_neg hb] at h
                    cases hcje : create_journal_entry
                        (get_or_create_ledger_accounts
                          (get_or_create_ledger_accounts s cap.to_wallet_id)
                          hold.wallet_id)
                        JournalEntryType.refund api_key.id ik
                        [⟨⟨cap.to_wallet_id, LedgerAccountKind.available⟩,
                            JournalLineDirection.debit,
                            amount.getD cap.refundable_amount, cap.currency⟩,
                         ⟨⟨hold.wallet_id, LedgerAccountKind.available⟩,
                            JournalLineDirection.credit,
                            amount.getD cap.refundable_amount, cap.currency⟩]
                        (some (toString cap.id)) now with
                    | error e => simp only [hcje, reduceCtorEq] at h
                    | ok p =>
                      obtain ⟨entry, s2e⟩ := p
                      simp only [hcje] at h
                      obtain ⟨-, -, -, hs2e⟩ := create_journal_entry_ok hcje
                      simp only [Except.ok.injEq, Prod.mk.injEq] at h
                      rw [← h.2, hs2e]
                      refine ⟨?_, ?_⟩
                      · simp only [get_or_create_holds]
                      · simp only [get_or_create_next_id]
                        exact Nat.le_succ_of_le (Nat.le_succ _)

theorem create_hold_ok_state {s s2 : LedgerState} {api_key : APIKey} {w : Nat}
    {amount : Int} {currency ik : String} {exp now : Int} {r : HoldResponse}
    (h : create_hold s api_key w amount currency ik exp now = Except.ok (r, s2)) :
    s2 = s ∨
    (∃ nh : Hold, nh.id = s.next_id + 1 ∧ nh.status = HoldStatus.active ∧
      nh.remaining_amount = nh.amount ∧ 0 < nh.amount ∧
      s2.holds = nh :: s.holds ∧ s2.next_id = s.next_id + 2) := by
  unfold create_hold at h
  by_cases ha : amount ≤ 0
  · rw [if_pos ha] at h
    simp only [reduceCtorEq] at h
  · rw [if_neg ha] at h
    cases hrep : List.find? (fun h0 =>
        h0.idempotency_key == ik && h0.created_by_api_key_id == api_key.id) s.holds with
    | some ex =>
      simp only [hrep] at h
      simp only [Except.ok.injEq, Prod.mk.injEq] at h
      exact Or.inl h.2.symm
    | none =>
      simp only [hrep] at h
      cases hw : findWallet s w with
      | none => simp only [hw, reduceCtorEq] at h
      | some wlt =>
        simp only [hw] at h
        by_cases hs1 : wlt.status ≠ WalletStatus.active
        · rw [if_pos hs1] at h
          simp only [reduceCtorEq] at h
        · rw [if_neg hs1] at h
          by_cases hc1 : wlt.currency ≠ currency
          · rw [if_pos hc1] at h
            simp only [reduceCtorEq] at h
          · rw [if_neg hc1] at h
            cases hlim : enforce_limits s api_key amount now none none with
            | error e => simp only [hlim, reduceCtorEq] at h
            | ok u =>
              simp only [hlim] at h
              by_cases hbal : get_ledger_account_balance
                  (get_or_create_ledger_accounts s w)
                  ⟨w, LedgerAccountKind.available⟩ < amount
              · rw [if_pos hbal] at h
                simp only [reduceCtorEq] at h
              · rw [if_neg hbal] at h
                cases hcje : create_journal_entry (get_or_create_ledger_accounts s w)
                    JournalEntryType.hold api_key.id ik
                    [⟨⟨w, LedgerAccountKind.available⟩,
                        JournalLineDirection.debit, amount, currency⟩,
                     ⟨⟨w, LedgerAccountKind.held⟩,
                        JournalLineDirection.credit, amount, currency⟩]
                    none now with
                | error e => simp only [hcje, reduceCtorEq] at h
                | ok p =>
                  obtain ⟨entry, s2e⟩ := p
                  simp only [hcje] at h
                  obtain ⟨-, -, -, hs2e⟩ := create_journal_entry_ok hcje
                  simp only [Except.ok.injEq, Prod.mk.injEq] at h
                  refine Or.inr
                    ⟨{ id := s.next_id + 1, wallet_id := w, amount := amount,
                       remaining_amount := amount, currency := currency,
                       status := HoldStatus.active, expires_at := now + exp,
                       created_by_api_key_id := api_key.id, idempotency_key := ik },
                     rfl, rfl, rfl, lt_of_not_le ha, ?_, ?_⟩
                  · rw [← h.2, hs2e]
                    simp only [get_or_create_holds, get_or_create_next_id]
                  · rw [← h.2, hs2e]
                    simp only [get_or_create_next_id]

theorem capture_hold_ok_state {s s2 : LedgerState} {api_key : APIKey} {hid0 : Nat}
    {t : RecipientAddress} {amount : Option Int} {ik : String} {now : Int}
    {r : CaptureResponse}
    (h : capture_hold s api_key hid0 t amount ik now = Except.ok (r, s2)) :
    (s2 = s ∧ List.find? (fun c => c.idempotency_key == ik) s.captures ≠ none) ∨
    (List.find? (fun c => c.idempotency_key == ik) s.captures = none ∧
      ∃ hold : Hold, findHold s hid0 = some hold ∧
        hold.status = HoldStatus.active ∧ 0 < r.amount ∧
        r.amount ≤ hold.remaining_amount ∧
        s2.holds = s.holds.map (fun h0 =>
          if h0.id == hold.id then
            { hold with
              remaining_amount := hold.remaining_amount - r.amount,
              status := if hold.remaining_amount - r.amount = 0 then
                  HoldStatus.captured
                else hold.status }
          else h0) ∧
        s2.next_id = s.next_id + 2) := by
  unfold capture_hold at h
  cases hfr : List.find? (fun c => c.idempotency_key == ik) s.captures with
  | some ex =>
    simp only [hfr] at h
    simp only [Except.ok.injEq, Prod.mk.injEq] at h
    exact Or.inl ⟨h.2.symm, by simp [hfr]⟩
  | none =>
    simp only [hfr] at h
    cases hh : findHold s hid0 with
    | none => simp only [hh, reduceCtorEq] at h
    | some hold =>
      simp only [hh] at h
      by_cases hown : hold.wallet_id ≠ api_key.wallet_id
      · rw [if_pos hown] at h
        simp only [reduceCtorEq] at h
      · rw [if_neg hown] at h
        by_cases hcc : (!hold.can_capture now) = true
        · rw [if_pos hcc] at h
          split at h <;> simp only [reduceCtorEq] at h
        · rw [if_neg hcc] at h
          have hcc2 : hold.can_capture now = true := by
            revert hcc
            cases hold.can_capture now <;> simp
          have hcc3 := hcc2
          unfold Hold.can_capture at hcc3
          simp only [Bool.and_eq_true, beq_iff_eq, decide_eq_true_eq] at hcc3
          obtain ⟨⟨hsta, -⟩, hrem⟩ := hcc3
          by_cases hca : amount.getD hold.remaining_amount ≤ 0
          · rw [if_pos hca] at h
            simp only [reduceCtorEq] at h
          · rw [if_neg hca] at h
            by_cases hover : hold.remaining_amount < amount.getD hold.remaining_amount
            · rw [if_pos hover] at h
              simp only [reduceCtorEq] at h
            · rw [if_neg hover] at h
              cases hrr : resolve_recipient s t with
              | error e => simp only [hrr, reduceCtorEq] at h
              | ok p =>
                obtain ⟨twid, thandle⟩ := p
                simp only [hrr] at h
                cases hw : findWallet s twid with
                | none => simp only [hw, reduceCtorEq] at h
                | some tw =>
                  simp only [hw] at h
                  by_cases hcur : tw.currency ≠ hold.currency
                  · rw [if_pos hcur] at h
                    simp only [reduceCtorEq] at h
                  · rw [if_neg hcur] at h
                    cases hlim : enforce_limits s api_key
                        (amount.getD hold.remaining_amount) now (some twid) thandle with
                    | error e => simp only [hlim, reduceCtorEq] at h
                    | ok u =>
                      simp only [hlim] at h
                      cases hcje : create_journal_entry
                          (get_or_create_ledger_accounts
                            (get_or_create_ledger_accounts s hold.wallet_id) twid)
                          JournalEntryType.capture api_key.id ik
                          [⟨⟨hold.wallet_id, LedgerAccountKind.held⟩,
                              JournalLineDirection.debit,
                              amount.getD hold.remaining_amount, hold.currency⟩,
                           ⟨⟨twid, LedgerAccountKind.available⟩,
                              JournalLineDirection.credit,
                              amount.getD hold.remaining_amount, hold.currency⟩]
                          none now with
                      | error e => simp only [hcje, reduceCtorEq] at h
                      | ok p2 =>
                        obtain ⟨entry, s2e⟩ := p2
                        simp only [hcje] at h
                        obtain ⟨-, -, -, hs2e⟩ := create_journal_entry_ok hcje
                        simp only [Except.ok.injEq, Prod.mk.injEq] at h
                        refine Or.inr ⟨rfl, hold, rfl, hsta, ?_, ?_, ?_, ?_⟩
                        · rw [← h.1]
                          exact lt_of_not_le hca
                        · rw [← h.1]
                          exact not_lt.mp hover
                        · rw [← h.2, hs2e, ← h.1]
                          simp only [get_or_create_holds, get_or_create_next_id,
                            captureResponseOf]
                        · rw [← h.2, hs2e]
                          simp only [get_or_create_next_id]

theorem release_hold_after_probe_ok_state {s s2 : LedgerState} {api_key : APIKey}
    {hid0 : Nat} {amount : Option Int} {ik : String} {now : Int} {r : ReleaseResponse}
    (h : release_hold_after_probe s api_key hid0 amount ik now = Except.ok (r, s2)) :
    ∃ hold : Hold, findHold s hid0 = some hold ∧
      hold.status = HoldStatus.active ∧ 0 < r.amount ∧
      r.amount ≤ hold.remaining_amount ∧
      s2.holds = s.holds.map (fun h0 =>
        if h0.id == hold.id then
          { hold with
            remaining_amount := hold.remaining_amount - r.amount,
            status := if hold.remaining_amount - r.amount = 0 then
                HoldStatus.released
              else hold.status }
        else h0) ∧
      s2.next_id = s.next_id + 1 := by
  unfold release_hold_after_probe at h
  cases hh : findHold s hid0 with
  | none => simp only [hh, reduceCtorEq] at h
  | some hold =>
    simp only [hh] at h
    by_cases hown : hold.wallet_id ≠ api_key.wallet_id
    · rw [if_pos hown] at h
      simp only [reduceCtorEq] at h
    · rw [if_neg hown] at h
      by_cases hcr : (!hold.can_release) = true
      · rw [if_pos hcr] at h
        simp only [reduceCtorEq] at h
      · rw [if_neg hcr] at h
        have hcr2 : hold.can_release = true := by
          revert hcr
          cases hold.can_release <;> simp
        have hcr3 := hcr2
        unfold Hold.can_release at hcr3
        simp only [Bool.and_eq_true, beq_iff_eq, decide_eq_true_eq] at hcr3
        obtain ⟨hsta, hrem⟩ := hcr3
        by_cases hra : amount.getD hold.remaining_amount ≤ 0
        · rw [if_pos hra] at h
          simp only [reduceCtorEq] at h
        · rw [if_neg hra] at h
          by_cases hover : hold.remaining_amount < amount.getD hold.remaining_amount
          · rw [if_pos hover] at h
            simp only [reduceCtorEq] at h
          · rw [if_neg hover] at h
            cases hcje : create_journal_entry
                (get_or_create_ledger_accounts s hold.wallet_id)
                JournalEntryType.release api_key.id ik
                [⟨⟨hold.wallet_id, LedgerAccountKind.held⟩,
                    JournalLineDirection.debit,
                    amount.getD hold.remaining_amount, hold.currency⟩,
                 ⟨⟨hold.wallet_id, LedgerAccountKind.available⟩,
                    JournalLineDirection.credit,
                    amount.getD hold.remaining_amount, hold.currency⟩]
                none now with
            | error e => simp only [hcje, reduceCtorEq] at h
            | ok p =>
              obtain ⟨entry, s2e⟩ := p
              simp only [hcje] at h
              obtain ⟨-, -, -, hs2e⟩ := create_journal_entry_ok hcje
              simp only [Except.ok.injEq, Prod.mk.injEq] at h
              refine ⟨hold, rfl, hsta, ?_, ?_, ?_, ?_⟩
              · rw [← h.1]
                exact lt_of_not_le hra
              · rw [← h.1]
                exact not_lt.mp hover
              · rw [← h.2, hs2e, ← h.1]
                simp only [get_or_create_holds]
              · rw [← h.2, hs2e]
                simp only [get_or_create_next_id]

theorem release_hold_ok_state {s s2 : LedgerState} {api_key : APIKey}
    {hid0 : Nat} {amount : Option Int} {ik : String} {now : Int} {r : ReleaseResponse}
    (h : release_hold s api_key hid0 amount ik now = Except.ok (r, s2)) :
    (s2 = s ∧ releaseReplays s ik api_key.id = true) ∨
    (releaseReplays s ik api_key.id = false ∧
      ∃ hold : Hold, findHold s hid0 = some hold ∧
        hold.status = HoldStatus.active ∧ 0 < r.amount ∧
        r.amount ≤ hold.remaining_amount ∧
        s2.holds = s.holds.map (fun h0 =>
          if h0.id == hold.id then
            { hold with
              remaining_amount := hold.remaining_amount - r.amount,
              status := if hold.remaining_amount - r.amount = 0 then
                  HoldStatus.released
                else hold.status }
          else h0) ∧
        s2.next_id = s.next_id + 1) := by
  unfold release_hold at h
  cases hci : check_idempotency s ik api_key.id with
  | none =>
    simp only [hci] at h
    exact Or.inr ⟨by simp only [releaseReplays, hci], release_hold_after_probe_ok_state h⟩
  | some e =>
    simp only [hci] at h
    by_cases ht : (e.type == JournalEntryType.release) = true
    · rw [if_pos ht] at h
      cases hcl : List.find? (fun l => l.direction == JournalLineDirection.credit)
          e.lines with
      | none => simp only [hcl, reduceCtorEq] at h
      | some cl =>
        simp only [hcl] at h
        simp only [Except.ok.injEq, Prod.mk.injEq] at h
        refine Or.inl ⟨h.2.symm, ?_⟩
        simp only [releaseReplays, hci]
        exact ht
    · rw [if_neg ht] at h
      exact Or.inr ⟨by simp only [releaseReplays, hci]; exact Bool.eq_false_iff.mpr ht,
        release_hold_after_probe_ok_state h⟩

theorem findHold_map_key {l : List Hold} (kid hid : Nat) (hold2 : Hold)
    (hid2 : hold2.id = kid) :
    (l.map (fun h0 => if h0.id == kid then hold2 else h0)).find?
        (fun h0 => h0.id == hid) =
      (l.find? (fun h0 => h0.id == hid)).map
        (fun h0 => if h0.id == kid then hold2 else h0) := by
  apply find?_map_id_preserving
  intro x
  by_cases hx : (x.id == kid) = true
  · have hxe : x.id = kid := beq_iff_eq.mp hx
    rw [if_pos hx, hid2, hxe]
  · rw [if_neg hx]

theorem holdTraceInvariant_applyOp (s : LedgerState) (hid : Nat) (capAcc relAcc : Int)
    (op : WalletOp) (hinv : holdTraceInvariant s hid capAcc relAcc) :
    holdTraceInvariant (applyOp s op) hid (capAcc + captureContribution s hid op)
      (relAcc + releaseContribution s hid op) := by
  obtain ⟨hlt, hh, hfind, hideq, h0r, hler, hstat, hacc⟩ := hinv
  cases op with
  | transferOp k f t a c ik ref now =>
    have hc0 : captureContribution s hid (WalletOp.transferOp k f t a c ik ref now) = 0 :=
      rfl
    have hr0 : releaseContribution s hid (WalletOp.transferOp k f t a c ik ref now) = 0 :=
      rfl
    rw [hc0, hr0, add_zero, add_zero]
    simp only [applyOp]
    cases hres : create_transfer s k f t a c ik ref now with
    | error e2 => exact ⟨hlt, hh, hfind, hideq, h0r, hler, hstat, hacc⟩
    | ok p =>
      obtain ⟨r2, s2⟩ := p
      change holdTraceInvariant s2 hid capAcc relAcc
      obtain ⟨hholds, hnext⟩ := create_transfer_ok_state hres
      refine ⟨lt_of_lt_of_le hlt hnext, hh, ?_, hideq, h0r, hler, hstat, hacc⟩
      unfold findHold at hfind ⊢
      rw [hholds]
      exact hfind
  | refundOp k cid a ik now =>
    have hc0 : captureContribution s hid (WalletOp.refundOp k cid a ik now) = 0 := rfl
    have hr0 : releaseContribution s hid (WalletOp.refundOp k cid a ik now) = 0 := rfl
    rw [hc0, hr0, add_zero, add_zero]
    simp only [applyOp]
    cases hres : create_refund s k cid a ik now with
    | error e2 => exact ⟨hlt, hh, hfind, hideq, h0r, hler, hstat, hacc⟩
    | ok p =>
      obtain ⟨r2, s2⟩ := p
      change holdTraceInvariant s2 hid capAcc relAcc
      obtain ⟨hholds, hnext⟩ := create_refund_ok_state hres
      refine ⟨lt_of_lt_of_le hlt hnext, hh, ?_, hideq, h0r, hler, hstat, hacc⟩
      unfold findHold at hfind ⊢
      rw [hholds]
      exact hfind
  | holdOp k w a c ik e now =>
    have hc0 : captureContribution s hid (WalletOp.holdOp k w a c ik e now) = 0 := rfl
    have hr0 : releaseContribution s hid (WalletOp.holdOp k w a c ik e now) = 0 := rfl
    rw [hc0, hr0, add_zero, add_zero]
    simp only [applyOp]
    cases hres : create_hold s k w a c ik e now with
    | error e2 => exact ⟨hlt, hh, hfind, hideq, h0r, hler, hstat, hacc⟩
    | ok p =>
      obtain ⟨r2, s2⟩ := p
      change holdTraceInvariant s2 hid capAcc relAcc
      rcases create_hold_ok_state hres with hsame | ⟨nh, hnid, -, -, -, hholds, hnext⟩
      · rw [hsame]
        exact ⟨hlt, hh, hfind, hideq, h0r, hler, hstat, hacc⟩
      · refine ⟨by rw [hnext]; omega, hh, ?_, hideq, h0r, hler, hstat, hacc⟩
        have hneg : ¬ ((nh.id == hid) = true) := by
          simp only [hnid, beq_iff_eq]
          omega
        unfold findHold at hfind ⊢
        rw [hholds, List.find?_cons_of_neg (p := fun (h0 : Hold) => h0.id == hid) _ hneg, hfind]
  | captureOp k h2 t a ik now =>
    have hr0 : releaseContribution s hid (WalletOp.captureOp k h2 t a ik now) = 0 := rfl
    rw [hr0, add_zero]
    simp only [applyOp]
    cases hres : capture_hold s k h2 t a ik now with
    | error e2 =>
      have hc0 : captureContribution s hid (WalletOp.captureOp k h2 t a ik now) = 0 := by
        have hceq : captureContribution s hid (WalletOp.captureOp k h2 t a ik now) =
            if h2 = hid ∧
              List.find? (fun c0 => c0.idempotency_key == ik) s.captures = none then
              captureResultAmount s k h2 t a ik now
            else 0 := rfl
        have hca : captureResultAmount s k h2 t a ik now = 0 := by
          unfold captureResultAmount
          rw [hres]
        rw [hceq, hca, ite_self]
      rw [hc0, add_zero]
      exact ⟨hlt, hh, hfind, hideq, h0r, hler, hstat, hacc⟩
    | ok p =>
      obtain ⟨r2, s2⟩ := p
      change holdTraceInvariant s2 hid
        (capAcc + captureContribution s hid (WalletOp.captureOp k h2 t a ik now)) relAcc
      rcases capture_hold_ok_state hres with ⟨hsame, hrep⟩ |
        ⟨hfr, hold, hfindh, hsta, hpos, hble, hholds, hnext⟩
      · have hc0 : captureContribution s hid (WalletOp.captureOp k h2 t a ik now) = 0 := by
          have hceq : captureContribution s hid (WalletOp.captureOp k h2 t a ik now) =
              if h2 = hid ∧
                List.find? (fun c0 => c0.idempotency_key == ik) s.captures = none then
                captureResultAmount s k h2 t a ik now
              else 0 := rfl
          rw [hceq]
          exact if_neg (fun hcon => hrep hcon.2)
        rw [hc0, add_zero, hsame]
        exact ⟨hlt, hh, hfind, hideq, h0r, hler, hstat, hacc⟩
      · by_cases hsh : h2 = hid
        · have hsh2 : hid = h2 := hsh.symm
          subst hsh2
          rw [hfind] at hfindh
          have hhh : hh = hold := Option.some.inj hfindh
          subst hhh
          have hcv : captureContribution s hid (WalletOp.captureOp k hid t a ik now) =
              r2.amount := by
            have hceq : captureContribution s hid (WalletOp.captureOp k hid t a ik now) =
                if hid = hid ∧
                  List.find? (fun c0 => c0.idempotency_key == ik) s.captures = none then
                  captureResultAmount s k hid t a ik now
                else 0 := rfl
            rw [hceq, if_pos ⟨rfl, hfr⟩]
            unfold captureResultAmount
            rw [hres]
          rw [hcv]
          refine ⟨by rw [hnext]; omega,
            { hh with
              remaining_amount := hh.remaining_amount - r2.amount,
              status := if hh.remaining_amount - r2.amount = 0 then
                  HoldStatus.captured
                else hh.status }, ?_, hideq,
            by show (0:Int) ≤ hh.remaining_amount - r2.amount; omega, ?_, ?_, ?_⟩
          · unfold findHold at hfind ⊢
            rw [hholds, findHold_map_key hh.id hid
              { hh with
                remaining_amount := hh.remaining_amount - r2.amount,
                status := if hh.remaining_amount - r2.amount = 0 then
                    HoldStatus.captured
                  else hh.status } rfl, hfind]
            simp only [Option.map_some']
            rw [if_pos (beq_self_eq_true hh.id)]
          · show hh.remaining_amount - r2.amount ≤ hh.amount
            omega
          · show (if hh.remaining_amount - r2.amount = 0 then HoldStatus.captured
                else hh.status) ≠ HoldStatus.active ↔
              hh.remaining_amount - r2.amount = 0
            by_cases hz : hh.remaining_amount - r2.amount = 0
            · rw [if_pos hz]
              simp [hz]
            · rw [if_neg hz, hsta]
              simp [hz]
          · show capAcc + r2.amount + relAcc =
              hh.amount - (hh.remaining_amount - r2.amount)
            omega
        · have hc0 : captureContribution s hid (WalletOp.captureOp k h2 t a ik now) =
              0 := by
            have hceq : captureContribution s hid (WalletOp.captureOp k h2 t a ik now) =
                if h2 = hid ∧
                  List.find? (fun c0 => c0.idempotency_key == ik) s.captures = none then
                  captureResultAmount s k h2 t a ik now
                else 0 := rfl
            rw [hceq]
            exact if_neg (fun hcon => hsh hcon.1)
          rw [hc0, add_zero]
          have hbeq : (hold.id == h2) = true := by
            unfold findHold at hfindh
            exact List.find?_some (p := fun (h0 : Hold) => h0.id == h2) hfindh
          refine ⟨by rw [hnext]; omega, hh, ?_, hideq, h0r, hler, hstat, hacc⟩
          have hne2 : ¬ ((hh.id == hold.id) = true) := by
            simp only [beq_iff_eq, hideq, beq_iff_eq.mp hbeq]
            exact fun hcon => hsh hcon.symm
          unfold findHold at hfind ⊢
          rw [hholds, findHold_map_key hold.id hid
            { hold with
              remaining_amount := hold.remaining_amount - r2.amount,
              status := if hold.remaining_amount - r2.amount = 0 then
                  HoldStatus.captured
                else hold.status } rfl, hfind]
          simp only [Option.map_some']
          rw [if_neg hne2]
  | releaseOp k h2 a ik now =>
    have hc0 : captureContribution s hid (WalletOp.releaseOp k h2 a ik now) = 0 := rfl
    rw [hc0, add_zero]
    simp only [applyOp]
    cases hres : release_hold s k h2 a ik now with
    | error e2 =>
      have hr0 : releaseContribution s hid (WalletOp.releaseOp k h2 a ik now) = 0 := by
        have hreq : releaseContribution s hid (WalletOp.releaseOp k h2 a ik now) =
            if h2 = hid ∧ releaseReplays s ik k.id = false then
              releaseResultAmount s k h2 a ik now
            else 0 := rfl
        have hra : releaseResultAmount s k h2 a ik now = 0 := by
          unfold releaseResultAmount
          rw [hres]
        rw [hreq, hra, ite_self]
      rw [hr0, add_zero]
      exact ⟨hlt, hh, hfind, hideq, h0r, hler, hstat, hacc⟩
    | ok p =>
      obtain ⟨r2, s2⟩ := p
      change holdTraceInvariant s2 hid capAcc
        (relAcc + releaseContribution s hid (WalletOp.releaseOp k h2 a ik now))
      rcases release_hold_ok_state hres with ⟨hsame, hrep⟩ |
        ⟨hfr, hold, hfindh, hsta, hpos, hble, hholds, hnext⟩
      · have hr0 : releaseContribution s hid (WalletOp.releaseOp k h2 a ik now) = 0 := by
          have hreq : releaseContribution s hid (WalletOp.releaseOp k h2 a ik now) =
              if h2 = hid ∧ releaseReplays s ik k.id = false then
                releaseResultAmount s k h2 a ik now
              else 0 := rfl
          rw [hreq]
          exact if_neg (fun hcon => absurd (hrep.symm.trans hcon.2) (by decide))
        rw [hr0, add_zero, hsame]
        exact ⟨hlt, hh, hfind, hideq, h0r, hler, hstat, hacc⟩
      · by_cases hsh : h2 = hid
        · have hsh2 : hid = h2 := hsh.symm
          subst hsh2
          rw [hfind] at hfindh
          have hhh : hh = hold := Option.some.inj hfindh
          subst hhh
          have hrv : releaseContribution s hid (WalletOp.releaseOp k hid a ik now) =
              r2.amount := by
            have hreq : releaseContribution s hid (WalletOp.releaseOp k hid a ik now) =
                if hid = hid ∧ releaseReplays s ik k.id = false then
                  releaseResultAmount s k hid a ik now
                else 0 := rfl
            rw [hreq, if_pos ⟨rfl, hfr⟩]
            unfold releaseResultAmount
            rw [hres]
          rw [hrv]
          refine ⟨by rw [hnext]; omega,
            { hh with
              remaining_amount := hh.remaining_amount - r2.amount,
              status := if hh.remaining_amount - r2.amount = 0 then
                  HoldStatus.released
                else hh.status }, ?_, hideq,
            by show (0:Int) ≤ hh.remaining_amount - r2.amount; omega, ?_, ?_, ?_⟩
          · unfold findHold at hfind ⊢
            rw [hholds, findHold_map_key hh.id hid
              { hh with
                remaining_amount := hh.remaining_amount - r2.amount,
                status := if hh.remaining_amount - r2.amount = 0 then
                    HoldStatus.released
                  else hh.status } rfl, hfind]
            simp only [Option.map_some']
            rw [if_pos (beq_self_eq_true hh.id)]
          · show hh.remaining_amount - r2.amount ≤ hh.amount
            omega
          · show (if hh.remaining_amount - r2.amount = 0 then HoldStatus.released
                else hh.status) ≠ HoldStatus.active ↔
              hh.remaining_amount - r2.amount = 0
            by_cases hz : hh.remaining_amount - r2.amount = 0
            · rw [if_pos hz]
              simp [hz]
            · rw [if_neg hz, hsta]
              simp [hz]
          · show capAcc + (relAcc + r2.amount) =
              hh.amount - (hh.remaining_amount - r2.amount)
            omega
        · have hr0 : releaseContribution s hid (WalletOp.releaseOp k h2 a ik now) =
              0 := by
            have hreq : releaseContribution s hid (WalletOp.releaseOp k h2 a ik now) =
                if h2 = hid ∧ releaseReplays s ik k.id = false then
                  releaseResultAmount s k h2 a ik now
                else 0 := rfl
            rw [hreq]
            exact if_neg (fun hcon => hsh hcon.1)
          rw [hr0, add_zero]
          have hbeq : (hold.id == h2) = true := by
            unfold findHold at hfindh
            exact List.find?_some (p := fun (h0 : Hold) => h0.id == h2) hfindh
          refine ⟨by rw [hnext]; omega, hh, ?_, hideq, h0r, hler, hstat, hacc⟩
          have hne2 : ¬ ((hh.id == hold.id) = true) := by
            simp only [beq_iff_eq, hideq, beq_iff_eq.mp hbeq]
            exact fun hcon => hsh hcon.symm
          unfold findHold at hfind ⊢
          rw [hholds, findHold_map_key hold.id hid
            { hold with
              remaining_amount := hold.remaining_amount - r2.amount,
              status := if hold.remaining_amount - r2.amount = 0 then
                  HoldStatus.released
                else hold.status } rfl, hfind]
          simp only [Option.map_some']
          rw [if_neg hne2]

/-- C4: the hold lifecycle invariant is preserved along every sequence
of wallet operations.  Starting from any state where the invariant
holds for hold hid with accumulators capAcc and relAcc (capturing that
capAcc has been captured and relAcc released from the hold so far),
running any list of operations while adding up the amounts actually
captured and released from the hold keeps all of: 0 ≤ remaining_amount
≤ amount, the status has left active exactly when remaining_amount has
reached 0 (each mutation decrements remaining_amount by exactly the
response amount and flips the status at 0), and captured total plus
released total equals amount - remaining_amount, so once the status
leaves active the captures and releases account for exactly the
original amount. -/
theorem hold_capture_release_invariant (s : LedgerState) (hid : Nat)
    (capAcc relAcc : Int) (ops : List WalletOp)
    (hinv : holdTraceInvariant s hid capAcc relAcc) :
    holdTraceInvariant (runHoldTrace s hid capAcc relAcc ops).1 hid
      (runHoldTrace s hid capAcc relAcc ops).2.1
      (runHoldTrace s hid capAcc relAcc ops).2.2 := by
  induction ops generalizing s capAcc relAcc with
  | nil => exact hinv
  | cons op ops ih =>
    exact ih (applyOp s op) (capAcc + captureContribution s hid op)
      (relAcc + releaseContribution s hid op)
      (holdTraceInvariant_applyOp s hid capAcc relAcc op hinv)

/-- C4 witness: the invariant of the concrete expired-but-active hold
11 survives a full release of it. -/
theorem hold_capture_release_invariant_witness :
    holdTraceInvariant
      (runHoldTrace exHoldState 11 0 0
        [WalletOp.releaseOp exAliceKey 11 none "rl4" 999999]).1 11
      (runHoldTrace exHoldState 11 0 0
        [WalletOp.releaseOp exAliceKey 11 none "rl4" 999999]).2.1
      (runHoldTrace exHoldState 11 0 0
        [WalletOp.releaseOp exAliceKey 11 none "rl4" 999999]).2.2 :=
  hold_capture_release_invariant exHoldState 11 0 0
    [WalletOp.releaseOp exAliceKey 11 none "rl4" 999999]
    ⟨by decide, exHold, by rfl, by rfl, by decide, by decide, by decide, by decide⟩

theorem holds_status_applyOp (s : LedgerState) (op : WalletOp)
    (hinit : ∀ h ∈ s.holds, h.status = HoldStatus.active ∨
      h.status = HoldStatus.captured ∨ h.status = HoldStatus.released) :
    ∀ h ∈ (applyOp s op).holds, h.status = HoldStatus.active ∨
      h.status = HoldStatus.captured ∨ h.status = HoldStatus.released := by
  cases op with
  | transferOp k f t a c ik ref now =>
    simp only [applyOp]
    cases hres : create_transfer s k f t a c ik ref now with
    | error e2 => exact hinit
    | ok p =>
      obtain ⟨r2, s2⟩ := p
      have hmain : ∀ h ∈ s2.holds, h.status = HoldStatus.active ∨
          h.status = HoldStatus.captured ∨ h.status = HoldStatus.released := by
        rw [(create_transfer_ok_state hres).1]
        exact hinit
      exact hmain
  | refundOp k cid a ik now =>
    simp only [applyOp]
    cases hres : create_refund s k cid a ik now with
    | error e2 => exact hinit
    | ok p =>
      obtain ⟨r2, s2⟩ := p
      have hmain : ∀ h ∈ s2.holds, h.status = HoldStatus.active ∨
          h.status = HoldStatus.captured ∨ h.status = HoldStatus.released := by
        rw [(create_refund_ok_state hres).1]
        exact hinit
      exact hmain
  | holdOp k w a c ik e now =>
    simp only [applyOp]
    cases hres : create_hold s k w a c ik e now with
    | error e2 => exact hinit
    | ok p =>
      obtain ⟨r2, s2⟩ := p
      have hmain : ∀ h ∈ s2.holds, h.status = HoldStatus.active ∨
          h.status = HoldStatus.captured ∨ h.status = HoldStatus.released := by
        rcases create_hold_ok_state hres with hsame | ⟨nh, -, hnsta, -, -, hholds, -⟩
        · rw [hsame]
          exact hinit
        · rw [hholds]
          intro h hmem
          rcases List.mem_cons.mp hmem with heq | hmemtail
          · exact Or.inl (by rw [heq, hnsta])
          · exact hinit h hmemtail
      exact hmain
  | captureOp k h2 t a ik now =>
    simp only [applyOp]
    cases hres : capture_hold s k h2 t a ik now with
    | error e2 => exact hinit
    | ok p =>
      obtain ⟨r2, s2⟩ := p
      have hmain : ∀ h ∈ s2.holds, h.status = HoldStatus.active ∨
          h.status = HoldStatus.captured ∨ h.status = HoldStatus.released := by
        rcases capture_hold_ok_state hres with ⟨hsame, -⟩ |
          ⟨-, hold, -, hsta, -, -, hholds, -⟩
        · rw [hsame]
          exact hinit
        · rw [hholds]
          intro h hmem
          rcases List.mem_map.mp hmem with ⟨h0, hmem0, hdef⟩
          subst hdef
          by_cases hx : (h0.id == hold.id) = true
          · simp only [if_pos hx]
            by_cases hz : hold.remaining_amount - r2.amount = 0
            · rw [if_pos hz]
              exact Or.inr (Or.inl rfl)
            · rw [if_neg hz]
              exact Or.inl hsta
          · simp only [if_neg hx]
            exact hinit h0 hmem0
      exact hmain
  | releaseOp k h2 a ik now =>
    simp only [applyOp]
    cases hres : release_hold s k h2 a ik now with
    | error e2 => exact hinit
    | ok p =>
      obtain ⟨r2, s2⟩ := p
      have hmain : ∀ h ∈ s2.holds, h.status = HoldStatus.active ∨
          h.status = HoldStatus.captured ∨ h.status = HoldStatus.released := by
        rcases release_hold_ok_state hres with ⟨hsame, -⟩ |
          ⟨-, hold, -, hsta, -, -, hholds, -⟩
        · rw [hsame]
          exact hinit
        · rw [hholds]
          intro h hmem
          rcases List.mem_map.mp hmem with ⟨h0, hmem0, hdef⟩
          subst hdef
          by_cases hx : (h0.id == hold.id) = true
          · simp only [if_pos hx]
            by_cases hz : hold.remaining_amount - r2.amount = 0
            · rw [if_pos hz]
              exact Or.inr (Or.inr rfl)
            · rw [if_neg hz]
              exact Or.inl hsta
          · simp only [if_neg hx]
            exact hinit h0 hmem0
      exact hmain

/-- C10: no operation of the service ever assigns the hold status
expired.  Starting from any state whose holds all have status active,
captured or released, running any sequence of wallet operations leaves
every hold with status active, captured or released: creation writes
active, capture and release write captured respectively released only
on reaching remaining 0 (keeping active otherwise), and nothing -
neither a lazy check nor a sweep - ever stores the expired status, so a
hold past its expires_at simply stays active until captured or
released. -/
theorem hold_status_never_expired (s : LedgerState) (ops : List WalletOp)
    (hinit : ∀ h ∈ s.holds, h.status = HoldStatus.active ∨
      h.status = HoldStatus.captured ∨ h.status = HoldStatus.released) :
    ∀ h ∈ (applyOps s ops).holds, h.status = HoldStatus.active ∨
      h.status = HoldStatus.captured ∨ h.status = HoldStatus.released := by
  induction ops generalizing s with
  | nil => exact hinit
  | cons op ops ih => exact ih (applyOp s op) (holds_status_applyOp s op hinit)

/-- C10 witness: after a partial capture and then a release of the
concrete hold 11, the resulting hold row (remaining 0, released) still
has a status among active, captured and released. -/
theorem hold_status_never_expired_witness :
    ∃ h0, h0 ∈ (applyOps exHoldState
        [WalletOp.captureOp exAliceKey 11 (RecipientAddress.wallet_id 2) (some 40)
           "c9" 100,
         WalletOp.releaseOp exAliceKey 11 none "r9" 100]).holds ∧
      (h0.status = HoldStatus.active ∨ h0.status = HoldStatus.captured ∨
       h0.status = HoldStatus.released) := by
  have hmem :
      ({ id := 11, wallet_id := 1, amount := 100, remaining_amount := 0,
         currency := "USD", status := HoldStatus.released, expires_at := 3700,
         created_by_api_key_id := 7, idempotency_key := "h1" } : Hold) ∈
      (applyOps exHoldState
        [WalletOp.captureOp exAliceKey 11 (RecipientAddress.wallet_id 2) (some 40)
           "c9" 100,
         WalletOp.releaseOp exAliceKey 11 none "r9" 100]).holds := by decide
  exact ⟨_, hmem, hold_status_never_expired exHoldState
    [WalletOp.captureOp exAliceKey 11 (RecipientAddress.wallet_id 2) (some 40) "c9" 100,
     WalletOp.releaseOp exAliceKey 11 none "r9" 100]
    (by decide) _ hmem⟩

end AgentWallet
